import Mathlib

/-!
Verification of the Fare Settlement Engine of the shuttle-system CLI.

The definitions below are a shallow embedding of the tap-processing and
end-of-shift settlement logic of `src/system.py` (`process_rider_tap`,
`handle_end_of_shift`).  Database rows become structures, SQL `SELECT ...
fetchone()` becomes a first-match search over the row list (sqlite returns
rows in insertion order for these unordered queries), `UPDATE ... WHERE id`
becomes a map over the row list, and `INSERT` becomes an append.  Monetary
amounts and distances are rationals; `round2` models Python's `round(x, 2)`
(round half to even) on exact values.  The source commits a tap's writes only
when control reaches `conn.commit()`; an early `return` or an exception
closes the connection without committing, which rolls the pending writes
back, so every early-exit path below returns the original store unchanged.
Riders are keyed here by their numeric id (`username` is a unique key in the
source; the lookup is one-to-one).
-/
namespace ShuttleSystem

/-- Trip status strings of the source (`TripStatus` enum). -/
inductive TripStatus where
  | ACTIVE
  | COMPLETED
  | AUTO_COMPLETED
deriving DecidableEq, Repr

/-- Transaction type strings of the source (`TransactionType` enum). -/
inductive TransactionType where
  | RIDE_PAYMENT
  | ADD_FUNDS
  | ADMIN_ADJUSTMENT
deriving DecidableEq, Repr

/-- A row of the `user` table (the fields the engine reads). -/
structure Rider where
  id : Nat
  wallet_balance : ℚ
deriving DecidableEq, Repr

/-- A row of the `route_stop` table. -/
structure RouteStop where
  id : Nat
  route_id : Nat
  stop_order : Nat
  distance_from_start : ℚ
deriving DecidableEq, Repr

/-- A row of the `route` table. -/
structure Route where
  id : Nat
  base_fare : ℚ
  price_per_km : ℚ
deriving DecidableEq, Repr

/-- A row of the `active_trip` table (timestamps are opaque and dropped). -/
structure Trip where
  id : Nat
  rider_id : Nat
  shuttle_id : Nat
  tap_on_route_stop_id : Nat
  status : TripStatus
deriving DecidableEq, Repr

/-- A row of the `transaction_log` table (timestamp dropped). -/
structure LedgerEntry where
  rider_id : Nat
  amount : ℚ
  txType : TransactionType
  related_trip_id : Option Nat
deriving DecidableEq, Repr

/-- The committed state of the sqlite store, rows in insertion order. -/
structure DB where
  users : List Rider
  route_stops : List RouteStop
  routes : List Route
  trips : List Trip
  ledger : List LedgerEntry
deriving DecidableEq, Repr

/-- First element of a list satisfying a decidable predicate; models
`SELECT ... fetchone()` on an unordered query (sqlite row order). -/
def findFirst {α : Type} (p : α → Prop) [DecidablePred p] : List α → Option α
  | [] => none
  | a :: l => if p a then some a else findFirst p l

/-- All elements satisfying a decidable predicate, in order; models
`SELECT ... fetchall()`. -/
def filterP {α : Type} (p : α → Prop) [DecidablePred p] : List α → List α
  | [] => []
  | a :: l => if p a then a :: filterP p l else filterP p l

/-- Nearest integer with ties to even; models Python 3 `round` on an exact
value. -/
def roundHalfEven (q : ℚ) : ℤ :=
  let f : ℤ := ⌊q⌋
  if q - (f : ℚ) < 1/2 then f
  else if 1/2 < q - (f : ℚ) then f + 1
  else if f % 2 = 0 then f else f + 1

/-- Python `round(q, 2)` on an exact value: round half to even at two
decimal places. -/
def round2 (q : ℚ) : ℚ :=
  (roundHalfEven (q * 100) : ℚ) / 100

/-- Models `SELECT * FROM user WHERE id = ?` (in the source the rider is
fetched by `username`, a unique key; we key by id). -/
def findRider (users : List Rider) (rid : Nat) : Option Rider :=
  findFirst (fun u => u.id = rid) users

/-- Models `SELECT * FROM route_stop WHERE id = ?`. -/
def findRouteStop (stops : List RouteStop) (rsid : Nat) : Option RouteStop :=
  findFirst (fun rs => rs.id = rsid) stops

/-- Models `SELECT * FROM route WHERE id = ?`. -/
def findRoute (routes : List Route) (rid : Nat) : Option Route :=
  findFirst (fun r => r.id = rid) routes

/-- Models `SELECT * FROM active_trip WHERE rider_id = ? AND status = 'Active'`
with `fetchone()`. -/
def findActiveTrip (trips : List Trip) (rider_id : Nat) : Option Trip :=
  findFirst (fun t => t.rider_id = rider_id ∧ t.status = TripStatus.ACTIVE) trips

/-- Models `SELECT * FROM active_trip WHERE id = ?` (used only in statements,
to observe a trip row). -/
def findTrip (trips : List Trip) (tid : Nat) : Option Trip :=
  findFirst (fun t => t.id = tid) trips

/-- The later of two route stops by stop order (keeps the first on a tie). -/
def pickLater (a b : RouteStop) : RouteStop :=
  if a.stop_order < b.stop_order then b else a

/-- Models `SELECT * FROM route_stop WHERE route_id = ? ORDER BY stop_order
DESC LIMIT 1`: a route stop of the route with the highest stop order. -/
def lastStop (stops : List RouteStop) (route_id : Nat) : Option RouteStop :=
  match filterP (fun rs => rs.route_id = route_id) stops with
  | [] => none
  | s :: rest => some (rest.foldl pickLater s)

/-- Models `UPDATE user SET wallet_balance = ? WHERE id = ?`. -/
def updateBalance (users : List Rider) (rid : Nat) (nb : ℚ) : List Rider :=
  users.map (fun u => if u.id = rid then { u with wallet_balance := nb } else u)

/-- Models `UPDATE active_trip SET status = ? WHERE id = ?`. -/
def setTripStatus (trips : List Trip) (tid : Nat) (st : TripStatus) : List Trip :=
  trips.map (fun t => if t.id = tid then { t with status := st } else t)

/-- The three settlement writes of the source, executed together: set the
rider's balance to `rider.wallet_balance - fare`, append a RidePayment ledger
entry of `-fare` for the trip, and set the trip's status. -/
def chargeFare (db : DB) (rider : Rider) (fare : ℚ) (trip_id : Nat)
    (st : TripStatus) : DB :=
  { db with
      users := updateBalance db.users rider.id (rider.wallet_balance - fare),
      ledger := db.ledger ++
        [{ rider_id := rider.id, amount := -fare,
           txType := TransactionType.RIDE_PAYMENT,
           related_trip_id := some trip_id }],
      trips := setTripStatus db.trips trip_id st }

/-- Outcome of a tap event, as printed by the source. `StoreError` stands
for a row lookup coming back empty and the resulting exception, which rolls
the tap back. -/
inductive TapResult where
  | RiderNotFound
  | AlreadyTappedOn
  | TappedOff (fare : ℚ)
  | ForcedOffInsufficientFunds (max_fare : ℚ)
  | ForcedOffThenTappedOn (max_fare : ℚ)
  | InsufficientFunds
  | TappedOn
  | StoreError
deriving DecidableEq, Repr

/-- Embedding of `process_rider_tap` of `src/system.py`: returns the
committed store after the tap together with the outcome.  Paths that leave
the function before `conn.commit()` (rider not found, duplicate tap,
insufficient funds, an exception) return the store unchanged, because the
source closes the connection without committing, rolling the pending writes
back.  In particular the forced-settlement writes of the mismatched-route
branch are pending, not committed, when the subsequent fresh tap-on is
rejected for insufficient funds, so that branch returns the original store.
`next_trip_id` stands for the autoincrement id a newly inserted trip row
receives. -/
def process_rider_tap (db : DB) (rider_id : Nat) (current_route_stop_id : Nat)
    (shuttle_id : Nat) (next_trip_id : Nat) : DB × TapResult :=
  match findRider db.users rider_id with
  | none => (db, TapResult.RiderNotFound)
  | some rider =>
    match findRouteStop db.route_stops current_route_stop_id with
    | none => (db, TapResult.StoreError)
    | some current_stop_data =>
      match findRoute db.routes current_stop_data.route_id with
      | none => (db, TapResult.StoreError)
      | some route_data =>
        match findActiveTrip db.trips rider.id with
        | some active_trip =>
          match findRouteStop db.route_stops active_trip.tap_on_route_stop_id with
          | none => (db, TapResult.StoreError)
          | some tap_on_stop_data =>
            if active_trip.tap_on_route_stop_id = current_stop_data.id then
              (db, TapResult.AlreadyTappedOn)
            else if tap_on_stop_data.route_id = current_stop_data.route_id then
              let distance_traveled :=
                |current_stop_data.distance_from_start - tap_on_stop_data.distance_from_start|
              let fare := round2 (route_data.base_fare +
                distance_traveled * route_data.price_per_km)
              (chargeFare db rider fare active_trip.id TripStatus.COMPLETED,
               TapResult.TappedOff fare)
            else
              match lastStop db.route_stops tap_on_stop_data.route_id,
                    findRoute db.routes tap_on_stop_data.route_id with
              | some last_stop_data, some old_route_data =>
                let max_dist :=
                  |last_stop_data.distance_from_start - tap_on_stop_data.distance_from_start|
                let max_fare := round2 (old_route_data.base_fare +
                  max_dist * old_route_data.price_per_km)
                if rider.wallet_balance - max_fare < route_data.base_fare then
                  (db, TapResult.ForcedOffInsufficientFunds max_fare)
                else
                  let db1 := chargeFare db rider max_fare active_trip.id
                    TripStatus.AUTO_COMPLETED
                  ({ db1 with trips := db1.trips ++
                      [{ id := next_trip_id, rider_id := rider.id,
                         shuttle_id := shuttle_id,
                         tap_on_route_stop_id := current_stop_data.id,
                         status := TripStatus.ACTIVE }] },
                   TapResult.ForcedOffThenTappedOn max_fare)
              | _, _ => (db, TapResult.StoreError)
        | none =>
          if rider.wallet_balance < route_data.base_fare then
            (db, TapResult.InsufficientFunds)
          else
            ({ db with trips := db.trips ++
                [{ id := next_trip_id, rider_id := rider.id,
                   shuttle_id := shuttle_id,
                   tap_on_route_stop_id := current_stop_data.id,
                   status := TripStatus.ACTIVE }] },
             TapResult.TappedOn)

/-- The reads of one end-of-shift settlement: the rider row and, via the
tap-on stop, the route and its terminal stop, from which the maximum fare is
computed.  A missing row makes the source raise before any write. -/
structure SettlePlan where
  rider : Rider
  max_fare : ℚ
deriving DecidableEq, Repr

/-- Reads and fare computation of one iteration of `handle_end_of_shift`.
`none` means a lookup came back empty, so the iteration raises before its
first write. -/
def planSettle (db : DB) (trip : Trip) : Option SettlePlan :=
  match findRider db.users trip.rider_id,
        findRouteStop db.route_stops trip.tap_on_route_stop_id with
  | some rider, some tap_on_stop_data =>
    match findRoute db.routes tap_on_stop_data.route_id,
          lastStop db.route_stops tap_on_stop_data.route_id with
    | some route_data, some last_stop_data =>
      some { rider := rider,
             max_fare := round2 (route_data.base_fare +
               |last_stop_data.distance_from_start -
                 tap_on_stop_data.distance_from_start| *
                 route_data.price_per_km) }
    | _, _ => none
  | _, _ => none

/-- One iteration of the `handle_end_of_shift` loop over a shared
connection.  `cut = none` is a normal run; `cut = some k` injects a store
failure after the first `k` of the iteration's three writes (balance update,
ledger insert, status update).  The source catches the exception per trip
and keeps looping, and the writes already executed stay pending on the
connection and are committed by the single `conn.commit()` after the loop,
so they are kept here. -/
def settleTrip (db : DB) (trip : Trip) (cut : Option Nat) : DB :=
  match planSettle db trip with
  | none => db
  | some pl =>
    let n := cut.getD 3
    let nb := pl.rider.wallet_balance - pl.max_fare
    let db1 := if 1 ≤ n then
        { db with users := updateBalance db.users pl.rider.id nb }
      else db
    let db2 := if 2 ≤ n then
        { db1 with ledger := db1.ledger ++
            [{ rider_id := pl.rider.id, amount := -pl.max_fare,
               txType := TransactionType.RIDE_PAYMENT,
               related_trip_id := some trip.id }] }
      else db1
    if 3 ≤ n then
      { db2 with trips := setTripStatus db2.trips trip.id TripStatus.AUTO_COMPLETED }
    else db2

/-- Models `SELECT * FROM active_trip WHERE shuttle_id = ? AND status =
'Active'` with `fetchall()`: the snapshot the end-of-shift loop iterates
over. -/
def activeTripsOn (db : DB) (shuttle_id : Nat) : List Trip :=
  filterP (fun t => t.shuttle_id = shuttle_id ∧ t.status = TripStatus.ACTIVE) db.trips

/-- The end-of-shift loop: settles the listed trips in order against the
shared connection, threading the store state; `i` numbers the iterations so
`failAt` can address a single one. -/
def runShift (failAt : Nat → Option Nat) : Nat → DB → List Trip → DB
  | _, acc, [] => acc
  | i, acc, t :: rest => runShift failAt (i + 1) (settleTrip acc t (failAt i)) rest

/-- Embedding of `handle_end_of_shift` of `src/system.py`: snapshots the
shuttle's active trips, settles each in order, and commits everything that
was written (the source has a single `conn.commit()` after the loop).
`failAt i` injects a store failure into iteration `i` as in `settleTrip`;
`fun i => none` is a failure-free run. -/
def handle_end_of_shift (db : DB) (shuttle_id : Nat)
    (failAt : Nat → Option Nat) : DB :=
  runShift failAt 0 db (activeTripsOn db shuttle_id)

/-- A failure-free end-of-shift run. -/
def noFailure : Nat → Option Nat := fun _ => none

/-! ### Semantics of one end-of-shift settlement -/
/-- The reads of one end-of-shift settlement all succeed on this store. -/
def CanSettle (db : DB) (t : Trip) : Prop :=
  (findRider db.users t.rider_id).isSome = true ∧
  ∃ ts rt ls,
    findRouteStop db.route_stops t.tap_on_route_stop_id = some ts ∧
    findRoute db.routes ts.route_id = some rt ∧
    lastStop db.route_stops ts.route_id = some ls

/-- The maximum fare of a trip: the fare from its tap-on stop to the
terminal stop of the tap-on stop's route, on that route's pricing. -/
def maxFareOf (db : DB) (t : Trip) : Option ℚ :=
  match findRouteStop db.route_stops t.tap_on_route_stop_id with
  | none => none
  | some ts =>
    match findRoute db.routes ts.route_id, lastStop db.route_stops ts.route_id with
    | some rt, some ls =>
      some (round2 (rt.base_fare +
        |ls.distance_from_start - ts.distance_from_start| * rt.price_per_km))
    | _, _ => none

/-- The ledger entry an end-of-shift settlement appends for a trip. -/
def entryFor (db : DB) (t : Trip) : LedgerEntry :=
  { rider_id := t.rider_id, amount := -((maxFareOf db t).getD 0),
    txType := TransactionType.RIDE_PAYMENT, related_trip_id := some t.id }

/-! ### The ledger-balance invariant -/
/-- Sum of all ledger entry amounts recorded for a rider. -/
def ledgerSum (l : List LedgerEntry) (rid : Nat) : ℚ :=
  ((filterP (fun e => e.rider_id = rid) l).map (fun e => e.amount)).sum

/-- Every rider's cached wallet balance equals the sum of their ledger
entries. -/
def BalInv (db : DB) : Prop :=
  ∀ u ∈ db.users, u.wallet_balance = ledgerSum db.ledger u.id

/-- The rider table carries no duplicate primary key. -/
def NodupIds (users : List Rider) : Prop :=
  (users.map Rider.id).Nodup

/-! ### The single-active-trip invariant -/
/-- The active trips of one rider, in row order. -/
def activeFor (trips : List Trip) (rid : Nat) : List Trip :=
  filterP (fun t => t.rider_id = rid ∧ t.status = TripStatus.ACTIVE) trips

/-- Every rider has at most one active trip. -/
def ActiveInv (db : DB) : Prop :=
  ∀ rid, (activeFor db.trips rid).length ≤ 1

/-! ### Concrete stores for the pinned scenarios -/
/-- A store with one rider (balance 2.00) holding an active trip tapped on
at stop 1 of route 10 (base fare 0.50, 0.25 per km, terminal stop 2.1 km
out), and a second route 20 whose base fare is 2.00, with stop 3 on it. -/
def dbMismatch : DB :=
  { users := [⟨1, 2⟩],
    route_stops := [⟨1, 10, 1, 0⟩, ⟨2, 10, 2, 21/10⟩, ⟨3, 20, 1, 0⟩],
    routes := [⟨10, 1/2, 1/4⟩, ⟨20, 2, 1/4⟩],
    trips := [⟨1, 1, 5, 1, TripStatus.ACTIVE⟩],
    ledger := [⟨1, 2, TransactionType.ADD_FUNDS, none⟩] }

/-- A store with one rider (balance 10.00) holding an active trip on
shuttle 5, tapped on at stop 1 of route 10 (terminal stop 2.1 km out). -/
def dbShift : DB :=
  { users := [⟨1, 10⟩],
    route_stops := [⟨1, 10, 1, 0⟩, ⟨2, 10, 2, 21/10⟩],
    routes := [⟨10, 1/2, 1/4⟩],
    trips := [⟨1, 1, 5, 1, TripStatus.ACTIVE⟩],
    ledger := [⟨1, 10, TransactionType.ADD_FUNDS, none⟩] }

/-- A store with one rider (balance 0.30) holding an active trip tapped on
at stop 1 (0 km) of route 10; stop 2 lies 1.5 km out on the same route. -/
def dbTapOff : DB :=
  { users := [⟨1, 3/10⟩],
    route_stops := [⟨1, 10, 1, 0⟩, ⟨2, 10, 2, 3/2⟩],
    routes := [⟨10, 1/2, 1/4⟩],
    trips := [⟨1, 1, 5, 1, TripStatus.ACTIVE⟩],
    ledger := [⟨1, 3/10, TransactionType.ADD_FUNDS, none⟩] }

/-- A store with one rider (balance 0.30) holding an active trip on
shuttle 5 tapped on at stop 1 of route 10 (terminal stop 2.1 km out): the
end-of-shift maximum fare 1.02 exceeds the balance. -/
def dbPoor : DB :=
  { users := [⟨1, 3/10⟩],
    route_stops := [⟨1, 10, 1, 0⟩, ⟨2, 10, 2, 21/10⟩],
    routes := [⟨10, 1/2, 1/4⟩],
    trips := [⟨1, 1, 5, 1, TripStatus.ACTIVE⟩],
    ledger := [⟨1, 3/10, TransactionType.ADD_FUNDS, none⟩] }

/-- A store with two riders and no trips, over route 10 (base fare 0.50):
rider 1 has 0.30 (below the base fare), rider 2 has 2.00. -/
def dbFresh : DB :=
  { users := [⟨1, 3/10⟩, ⟨2, 2⟩],
    route_stops := [⟨1, 10, 1, 0⟩, ⟨2, 10, 2, 3/2⟩],
    routes := [⟨10, 1/2, 1/4⟩],
    trips := [],
    ledger := [] }

/-- A store with two riders, each holding an active trip on shuttle 5
tapped on at stop 1 of route 10. -/
def dbTwo : DB :=
  { users := [⟨1, 10⟩, ⟨2, 10⟩],
    route_stops := [⟨1, 10, 1, 0⟩, ⟨2, 10, 2, 21/10⟩],
    routes := [⟨10, 1/2, 1/4⟩],
    trips := [⟨1, 1, 5, 1, TripStatus.ACTIVE⟩, ⟨2, 2, 5, 1, TripStatus.ACTIVE⟩],
    ledger := [] }

/-! ### Basic facts about the list toolkit -/
/-- A found element is a member and satisfies the predicate. -/
theorem findFirst_some {α : Type} {p : α → Prop} [DecidablePred p] {l : List α}
    {a : α} (h : findFirst p l = some a) : a ∈ l ∧ p a := by
  induction l with
  | nil => simp [findFirst] at h
  | cons b l ih =>
    rw [findFirst] at h
    by_cases hb : p b
    · rw [if_pos hb] at h
      cases h
      exact ⟨List.mem_cons_self _ _, hb⟩
    · rw [if_neg hb] at h
      rcases ih h with ⟨hm, hp⟩
      exact ⟨List.mem_cons_of_mem _ hm, hp⟩

/-- An empty search means no member satisfies the predicate. -/
theorem findFirst_none {α : Type} {p : α → Prop} [DecidablePred p] {l : List α}
    (h : findFirst p l = none) : ∀ a ∈ l, ¬ p a := by
  induction l with
  | nil => intro a ha; cases ha
  | cons b l ih =>
    rw [findFirst] at h
    by_cases hb : p b
    · rw [if_pos hb] at h; cases h
    · rw [if_neg hb] at h
      intro a ha
      rcases List.mem_cons.mp ha with rfl | hm
      · exact hb
      · exact ih h a hm

/-- Searching a mapped list searches the original under the composed
predicate. -/
theorem findFirst_map {α : Type} (p : α → Prop) [DecidablePred p] (f : α → α)
    (l : List α) :
    findFirst p (l.map f) = (findFirst (fun a => p (f a)) l).map f := by
  induction l with
  | nil => rfl
  | cons b l ih =>
    rw [List.map_cons, findFirst, findFirst]
    by_cases hb : p (f b)
    · rw [if_pos hb, if_pos hb]; rfl
    · rw [if_neg hb, if_neg hb]; exact ih

/-- Equivalent predicates find the same element. -/
theorem findFirst_congr {α : Type} {p q : α → Prop} [DecidablePred p]
    [DecidablePred q] (h : ∀ a, p a ↔ q a) (l : List α) :
    findFirst p l = findFirst q l := by
  induction l with
  | nil => rfl
  | cons b l ih =>
    rw [findFirst, findFirst]
    by_cases hb : p b
    · rw [if_pos hb, if_pos ((h b).mp hb)]
    · rw [if_neg hb, if_neg (fun hq => hb ((h b).mpr hq)), ih]

/-- Membership in a filtered list. -/
theorem mem_filterP {α : Type} (p : α → Prop) [DecidablePred p] (l : List α)
    (a : α) : a ∈ filterP p l ↔ a ∈ l ∧ p a := by
  induction l with
  | nil => simp [filterP]
  | cons b l ih =>
    rw [filterP]
    by_cases hb : p b
    · rw [if_pos hb]
      constructor
      · intro h
        rcases List.mem_cons.mp h with rfl | h2
        · exact ⟨List.mem_cons_self _ _, hb⟩
        · rcases ih.mp h2 with ⟨hm, hp⟩
          exact ⟨List.mem_cons_of_mem _ hm, hp⟩
      · rintro ⟨hm, hp⟩
        rcases List.mem_cons.mp hm with rfl | h2
        · exact List.mem_cons_self _ _
        · exact List.mem_cons_of_mem _ (ih.mpr ⟨h2, hp⟩)
    · rw [if_neg hb]
      constructor
      · intro h
        rcases ih.mp h with ⟨hm, hp⟩
        exact ⟨List.mem_cons_of_mem _ hm, hp⟩
      · rintro ⟨hm, hp⟩
        rcases List.mem_cons.mp hm with rfl | h2
        · exact absurd hp hb
        · exact ih.mpr ⟨h2, hp⟩

/-- Filtering distributes over append. -/
theorem filterP_append {α : Type} (p : α → Prop) [DecidablePred p]
    (l1 l2 : List α) : filterP p (l1 ++ l2) = filterP p l1 ++ filterP p l2 := by
  induction l1 with
  | nil => rfl
  | cons b l ih =>
    rw [List.cons_append, filterP, filterP]
    by_cases hb : p b
    · rw [if_pos hb, if_pos hb, ih, List.cons_append]
    · rw [if_neg hb, if_neg hb, ih]

/-- Filtering a mapped list filters the original under the composed
predicate. -/
theorem filterP_map {α : Type} (p : α → Prop) [DecidablePred p] (f : α → α)
    (l : List α) :
    filterP p (l.map f) = (filterP (fun a => p (f a)) l).map f := by
  induction l with
  | nil => rfl
  | cons b l ih =>
    rw [List.map_cons, filterP, filterP]
    by_cases hb : p (f b)
    · rw [if_pos hb, if_pos hb, ih, List.map_cons]
    · rw [if_neg hb, if_neg hb, ih]

/-- A pointwise-stronger predicate filters to a list at most as long. -/
theorem filterP_length_mono {α : Type} {p q : α → Prop} [DecidablePred p]
    [DecidablePred q] (h : ∀ a, p a → q a) (l : List α) :
    (filterP p l).length ≤ (filterP q l).length := by
  induction l with
  | nil => exact Nat.le_refl 0
  | cons b l ih =>
    rw [filterP, filterP]
    by_cases hb : p b
    · rw [if_pos hb, if_pos (h b hb)]
      simpa using ih
    · rw [if_neg hb]
      by_cases hq : q b
      · rw [if_pos hq]
        exact Nat.le_succ_of_le ih
      · rw [if_neg hq]
        exact ih

/-- A filter over members that all fail the predicate is empty. -/
theorem filterP_eq_nil {α : Type} {p : α → Prop} [DecidablePred p] {l : List α}
    (h : ∀ a ∈ l, ¬ p a) : filterP p l = [] := by
  induction l with
  | nil => rfl
  | cons b l ih =>
    rw [filterP, if_neg (h b (List.mem_cons_self b l))]
    exact ih fun a ha => h a (List.mem_cons_of_mem _ ha)

/-- A list of length at most one containing a member is that singleton. -/
theorem eq_singleton_of_mem_of_length_le {α : Type} {l : List α} {a : α}
    (hm : a ∈ l) (hl : l.length ≤ 1) : l = [a] := by
  cases l with
  | nil => cases hm
  | cons b t =>
    cases t with
    | nil =>
      rcases List.mem_singleton.mp hm with rfl
      rfl
    | cons c t2 => simp at hl

/-! ### Evaluation rules for the pinned rounding -/
/-- Evaluation of `round2` when the scaled value falls strictly below the
half mark. -/
theorem round2_eq_low (q : ℚ) (f : ℤ) (h1 : (f : ℚ) ≤ q * 100)
    (h2 : q * 100 - (f : ℚ) < 1/2) : round2 q = (f : ℚ) / 100 := by
  have hf : ⌊q * 100⌋ = f := Int.floor_eq_iff.mpr ⟨h1, by linarith⟩
  simp only [round2, roundHalfEven, hf]
  rw [if_pos h2]

/-- Evaluation of `round2` when the scaled value falls strictly above the
half mark. -/
theorem round2_eq_high (q : ℚ) (f : ℤ) (h1 : (f : ℚ) ≤ q * 100)
    (h2 : q * 100 < (f : ℚ) + 1) (h3 : 1/2 < q * 100 - (f : ℚ)) :
    round2 q = ((f : ℚ) + 1) / 100 := by
  have hf : ⌊q * 100⌋ = f := Int.floor_eq_iff.mpr ⟨h1, by linarith⟩
  simp only [round2, roundHalfEven, hf]
  rw [if_neg (by linarith), if_pos h3]
  push_cast
  ring

/-- Evaluation of `round2` on an exact half with even floor: ties go down. -/
theorem round2_eq_half_even (q : ℚ) (f : ℤ) (h : q * 100 - (f : ℚ) = 1/2)
    (he : f % 2 = 0) : round2 q = (f : ℚ) / 100 := by
  have hf : ⌊q * 100⌋ = f := Int.floor_eq_iff.mpr ⟨by linarith, by linarith⟩
  simp only [round2, roundHalfEven, hf]
  rw [if_neg (by linarith), if_neg (by linarith), if_pos he]

/-- Evaluation of `round2` on an exact half with odd floor: ties go up. -/
theorem round2_eq_half_odd (q : ℚ) (f : ℤ) (h : q * 100 - (f : ℚ) = 1/2)
    (ho : ¬ f % 2 = 0) : round2 q = ((f : ℚ) + 1) / 100 := by
  have hf : ⌊q * 100⌋ = f := Int.floor_eq_iff.mpr ⟨by linarith, by linarith⟩
  simp only [round2, roundHalfEven, hf]
  rw [if_neg (by linarith), if_neg (by linarith), if_neg ho]
  push_cast
  ring

/-! ### Semantics of the row updates -/
/-- Looking a rider up after a balance update looks the original list up and
patches the hit. -/
theorem updateBalance_find (users : List Rider) (rid rid2 : Nat) (nb : ℚ) :
    findRider (updateBalance users rid nb) rid2 =
      (findRider users rid2).map
        (fun u => if u.id = rid then { u with wallet_balance := nb } else u) := by
  unfold findRider updateBalance
  rw [findFirst_map]
  congr 1
  apply findFirst_congr
  intro a
  by_cases ha : a.id = rid
  · rw [if_pos ha]
  · rw [if_neg ha]

/-- The updated rider is found with the new balance. -/
theorem findRider_updateBalance_self (users : List Rider) (rid : Nat) (nb : ℚ)
    (u : Rider) (h : findRider users rid = some u) :
    findRider (updateBalance users rid nb) rid =
      some { u with wallet_balance := nb } := by
  have hid : u.id = rid := (findFirst_some h).2
  rw [updateBalance_find, h, Option.map_some', if_pos hid]

/-- A balance update changes no other rider's row. -/
theorem findRider_updateBalance_other (users : List Rider) (rid rid2 : Nat)
    (nb : ℚ) (h : rid2 ≠ rid) :
    findRider (updateBalance users rid nb) rid2 = findRider users rid2 := by
  rw [updateBalance_find]
  cases hf : findRider users rid2 with
  | none => rfl
  | some u =>
    have hid : u.id = rid2 := (findFirst_some hf).2
    rw [Option.map_some', if_neg (by rw [hid]; exact h)]

/-- A balance update keeps every rider lookup succeeding or failing as
before. -/
theorem findRider_updateBalance_isSome (users : List Rider) (rid rid2 : Nat)
    (nb : ℚ) :
    (findRider (updateBalance users rid nb) rid2).isSome =
      (findRider users rid2).isSome := by
  rw [updateBalance_find]
  cases findRider users rid2 <;> rfl

/-- Looking a trip up after a status update looks the original list up and
patches the hit. -/
theorem setTripStatus_find (trips : List Trip) (tid tid2 : Nat)
    (st : TripStatus) :
    findTrip (setTripStatus trips tid st) tid2 =
      (findTrip trips tid2).map
        (fun t => if t.id = tid then { t with status := st } else t) := by
  unfold findTrip setTripStatus
  rw [findFirst_map]
  congr 1
  apply findFirst_congr
  intro a
  by_cases ha : a.id = tid
  · rw [if_pos ha]
  · rw [if_neg ha]

/-- A status update changes no other trip's row. -/
theorem findTrip_setTripStatus_other (trips : List Trip) (tid tid2 : Nat)
    (st : TripStatus) (h : tid2 ≠ tid) :
    findTrip (setTripStatus trips tid st) tid2 = findTrip trips tid2 := by
  rw [setTripStatus_find]
  cases hf : findTrip trips tid2 with
  | none => rfl
  | some t =>
    have hid : t.id = tid2 := (findFirst_some hf).2
    rw [Option.map_some', if_neg (by rw [hid]; exact h)]

/-- The updated trip is found with the new status. -/
theorem findTrip_setTripStatus_self (trips : List Trip) (tid : Nat)
    (st : TripStatus) (t : Trip) (h : findTrip trips tid = some t) :
    findTrip (setTripStatus trips tid st) tid = some { t with status := st } := by
  have hid : t.id = tid := (findFirst_some h).2
  rw [setTripStatus_find, h, Option.map_some', if_pos hid]

/-- After a status update every row carrying the trip id has the new
status. -/
theorem mem_setTripStatus_status (trips : List Trip) (tid : Nat)
    (st : TripStatus) :
    ∀ t2 ∈ setTripStatus trips tid st, t2.id = tid → t2.status = st := by
  intro t2 ht2 hid
  rcases List.mem_map.mp ht2 with ⟨t, htm, rfl⟩
  by_cases h : t.id = tid
  · rw [if_pos h]
  · rw [if_neg h] at hid
    exact absurd hid h

/-- The updated row of the targeted trip is a member of the result. -/
theorem mem_setTripStatus_of_mem (trips : List Trip) (tid : Nat)
    (st : TripStatus) (t : Trip) (ht : t ∈ trips) (hid : t.id = tid) :
    { t with status := st } ∈ setTripStatus trips tid st := by
  unfold setTripStatus
  refine List.mem_map.mpr ⟨t, ht, ?_⟩
  rw [if_pos hid]

/-! ### Branch equations for the tap-event state machine -/
/-- Branch equation: with an active trip tapped on at the current route
stop, the tap is returned as a no-op before any write. -/
theorem tap_already_on (db : DB) (rid rsid sh nid : Nat) (rider : Rider)
    (cs : RouteStop) (rt : Route) (trip : Trip)
    (hr : findRider db.users rid = some rider)
    (hcs : findRouteStop db.route_stops rsid = some cs)
    (hrt : findRoute db.routes cs.route_id = some rt)
    (hat : findActiveTrip db.trips rider.id = some trip)
    (heq : trip.tap_on_route_stop_id = cs.id) :
    process_rider_tap db rid rsid sh nid = (db, TapResult.AlreadyTappedOn) := by
  have hcsid : cs.id = rsid := (findFirst_some hcs).2
  have hts : findRouteStop db.route_stops trip.tap_on_route_stop_id = some cs := by
    rw [heq, hcsid]; exact hcs
  simp only [process_rider_tap, hr, hcs, hrt, hat, hts]
  rw [if_pos heq]

/-- Branch equation: tap-off, the current stop lies on the tap-on stop's
route but is a different route stop. -/
theorem tap_off_eq (db : DB) (rid rsid sh nid : Nat) (rider : Rider)
    (cs : RouteStop) (rt : Route) (trip : Trip) (ts : RouteStop)
    (hr : findRider db.users rid = some rider)
    (hcs : findRouteStop db.route_stops rsid = some cs)
    (hrt : findRoute db.routes cs.route_id = some rt)
    (hat : findActiveTrip db.trips rider.id = some trip)
    (hts : findRouteStop db.route_stops trip.tap_on_route_stop_id = some ts)
    (hne : trip.tap_on_route_stop_id ≠ cs.id)
    (hsame : ts.route_id = cs.route_id) :
    process_rider_tap db rid rsid sh nid =
      (chargeFare db rider
        (round2 (rt.base_fare +
          |cs.distance_from_start - ts.distance_from_start| * rt.price_per_km))
        trip.id TripStatus.COMPLETED,
       TapResult.TappedOff (round2 (rt.base_fare +
         |cs.distance_from_start - ts.distance_from_start| * rt.price_per_km))) := by
  simp only [process_rider_tap, hr, hcs, hrt, hat, hts]
  rw [if_neg hne, if_pos hsame]

/-- Branch equation: mismatched route, and the balance left by the forced
settlement fails the fresh tap-on check; the whole tap rolls back. -/
theorem tap_forced_insufficient (db : DB) (rid rsid sh nid : Nat)
    (rider : Rider) (cs : RouteStop) (rt : Route) (trip : Trip)
    (ts : RouteStop) (ls : RouteStop) (ort : Route)
    (hr : findRider db.users rid = some rider)
    (hcs : findRouteStop db.route_stops rsid = some cs)
    (hrt : findRoute db.routes cs.route_id = some rt)
    (hat : findActiveTrip db.trips rider.id = some trip)
    (hts : findRouteStop db.route_stops trip.tap_on_route_stop_id = some ts)
    (hne : trip.tap_on_route_stop_id ≠ cs.id)
    (hdiff : ts.route_id ≠ cs.route_id)
    (hls : lastStop db.route_stops ts.route_id = some ls)
    (hort : findRoute db.routes ts.route_id = some ort)
    (hlow : rider.wallet_balance - round2 (ort.base_fare +
      |ls.distance_from_start - ts.distance_from_start| * ort.price_per_km) <
        rt.base_fare) :
    process_rider_tap db rid rsid sh nid =
      (db, TapResult.ForcedOffInsufficientFunds (round2 (ort.base_fare +
        |ls.distance_from_start - ts.distance_from_start| * ort.price_per_km))) := by
  simp only [process_rider_tap, hr, hcs, hrt, hat, hts, hls, hort]
  rw [if_neg hne, if_neg hdiff, if_pos hlow]

/-- Branch equation: mismatched route, and the reduced balance passes the
fresh tap-on check; the forced settlement commits and a new trip opens. -/
theorem tap_forced_then_on (db : DB) (rid rsid sh nid : Nat)
    (rider : Rider) (cs : RouteStop) (rt : Route) (trip : Trip)
    (ts : RouteStop) (ls : RouteStop) (ort : Route)
    (hr : findRider db.users rid = some rider)
    (hcs : findRouteStop db.route_stops rsid = some cs)
    (hrt : findRoute db.routes cs.route_id = some rt)
    (hat : findActiveTrip db.trips rider.id = some trip)
    (hts : findRouteStop db.route_stops trip.tap_on_route_stop_id = some ts)
    (hne : trip.tap_on_route_stop_id ≠ cs.id)
    (hdiff : ts.route_id ≠ cs.route_id)
    (hls : lastStop db.route_stops ts.route_id = some ls)
    (hort : findRoute db.routes ts.route_id = some ort)
    (hok : ¬ rider.wallet_balance - round2 (ort.base_fare +
      |ls.distance_from_start - ts.distance_from_start| * ort.price_per_km) <
        rt.base_fare) :
    process_rider_tap db rid rsid sh nid =
      (let db1 := chargeFare db rider
        (round2 (ort.base_fare +
          |ls.distance_from_start - ts.distance_from_start| * ort.price_per_km))
        trip.id TripStatus.AUTO_COMPLETED
       { db1 with trips := db1.trips ++
          [{ id := nid, rider_id := rider.id, shuttle_id := sh,
             tap_on_route_stop_id := cs.id, status := TripStatus.ACTIVE }] },
       TapResult.ForcedOffThenTappedOn (round2 (ort.base_fare +
         |ls.distance_from_start - ts.distance_from_start| * ort.price_per_km))) := by
  simp only [process_rider_tap, hr, hcs, hrt, hat, hts, hls, hort]
  rw [if_neg hne, if_neg hdiff, if_neg hok]

/-- Branch equation: tap-on attempt with too small a balance is rejected
with no write. -/
theorem tap_on_insufficient (db : DB) (rid rsid sh nid : Nat) (rider : Rider)
    (cs : RouteStop) (rt : Route)
    (hr : findRider db.users rid = some rider)
    (hcs : findRouteStop db.route_stops rsid = some cs)
    (hrt : findRoute db.routes cs.route_id = some rt)
    (hat : findActiveTrip db.trips rider.id = none)
    (hlow : rider.wallet_balance < rt.base_fare) :
    process_rider_tap db rid rsid sh nid = (db, TapResult.InsufficientFunds) := by
  simp only [process_rider_tap, hr, hcs, hrt, hat]
  rw [if_pos hlow]

/-- Branch equation: tap-on attempt with enough balance opens an active
trip at the current route stop and writes nothing else. -/
theorem tap_on_success (db : DB) (rid rsid sh nid : Nat) (rider : Rider)
    (cs : RouteStop) (rt : Route)
    (hr : findRider db.users rid = some rider)
    (hcs : findRouteStop db.route_stops rsid = some cs)
    (hrt : findRoute db.routes cs.route_id = some rt)
    (hat : findActiveTrip db.trips rider.id = none)
    (hok : ¬ rider.wallet_balance < rt.base_fare) :
    process_rider_tap db rid rsid sh nid =
      ({ db with trips := db.trips ++
          [{ id := nid, rider_id := rider.id, shuttle_id := sh,
             tap_on_route_stop_id := cs.id, status := TripStatus.ACTIVE }] },
       TapResult.TappedOn) := by
  simp only [process_rider_tap, hr, hcs, hrt, hat]
  rw [if_neg hok]

/-- Forward computation of the settlement reads. -/
theorem planSettle_eq (db : DB) (t : Trip) (rider : Rider) (ts : RouteStop)
    (rt : Route) (ls : RouteStop)
    (hr : findRider db.users t.rider_id = some rider)
    (hts : findRouteStop db.route_stops t.tap_on_route_stop_id = some ts)
    (hrt : findRoute db.routes ts.route_id = some rt)
    (hls : lastStop db.route_stops ts.route_id = some ls) :
    planSettle db t = some
      { rider := rider,
        max_fare := round2 (rt.base_fare +
          |ls.distance_from_start - ts.distance_from_start| * rt.price_per_km) } := by
  simp only [planSettle, hr, hts, hrt, hls]

/-- Forward computation of the maximum fare. -/
theorem maxFareOf_eq (db : DB) (t : Trip) (ts : RouteStop) (rt : Route)
    (ls : RouteStop)
    (hts : findRouteStop db.route_stops t.tap_on_route_stop_id = some ts)
    (hrt : findRoute db.routes ts.route_id = some rt)
    (hls : lastStop db.route_stops ts.route_id = some ls) :
    maxFareOf db t = some (round2 (rt.base_fare +
      |ls.distance_from_start - ts.distance_from_start| * rt.price_per_km)) := by
  simp only [maxFareOf, hts, hrt, hls]

/-- Canonical form of one settlement iteration whose reads succeed: each of
the three writes lands exactly when the failure cut has not yet hit. -/
theorem settleTrip_shape (db : DB) (t : Trip) (cut : Option Nat)
    (pl : SettlePlan) (hp : planSettle db t = some pl) :
    settleTrip db t cut =
      { users := if 1 ≤ cut.getD 3 then
            updateBalance db.users pl.rider.id (pl.rider.wallet_balance - pl.max_fare)
          else db.users,
        route_stops := db.route_stops,
        routes := db.routes,
        trips := if 3 ≤ cut.getD 3 then
            setTripStatus db.trips t.id TripStatus.AUTO_COMPLETED
          else db.trips,
        ledger := if 2 ≤ cut.getD 3 then
            db.ledger ++
              [⟨pl.rider.id, -pl.max_fare, TransactionType.RIDE_PAYMENT, some t.id⟩]
          else db.ledger } := by
  simp only [settleTrip, hp]
  by_cases h1 : 1 ≤ cut.getD 3 <;> by_cases h2 : 2 ≤ cut.getD 3 <;>
    by_cases h3 : 3 ≤ cut.getD 3 <;> simp [h1, h2, h3]

/-- A settlement iteration never touches the route-stop table. -/
theorem settleTrip_route_stops (db : DB) (t : Trip) (cut : Option Nat) :
    (settleTrip db t cut).route_stops = db.route_stops := by
  cases hp : planSettle db t with
  | none => simp [settleTrip, hp]
  | some pl => rw [settleTrip_shape db t cut pl hp]

/-- A settlement iteration never touches the route table. -/
theorem settleTrip_routes (db : DB) (t : Trip) (cut : Option Nat) :
    (settleTrip db t cut).routes = db.routes := by
  cases hp : planSettle db t with
  | none => simp [settleTrip, hp]
  | some pl => rw [settleTrip_shape db t cut pl hp]

/-- A settlement iteration keeps every rider lookup succeeding or failing
as before. -/
theorem settleTrip_rider_isSome (db : DB) (t : Trip) (cut : Option Nat)
    (r : Nat) :
    (findRider (settleTrip db t cut).users r).isSome =
      (findRider db.users r).isSome := by
  cases hp : planSettle db t with
  | none => simp [settleTrip, hp]
  | some pl =>
    rw [settleTrip_shape db t cut pl hp]
    by_cases h1 : 1 ≤ cut.getD 3
    · rw [if_pos h1]
      exact findRider_updateBalance_isSome _ _ _ _
    · rw [if_neg h1]

/-- A settlement iteration changes no other trip's row. -/
theorem settleTrip_findTrip_other (db : DB) (t : Trip) (cut : Option Nat)
    (tid : Nat) (h : tid ≠ t.id) :
    findTrip (settleTrip db t cut).trips tid = findTrip db.trips tid := by
  cases hp : planSettle db t with
  | none => simp [settleTrip, hp]
  | some pl =>
    rw [settleTrip_shape db t cut pl hp]
    by_cases h3 : 3 ≤ cut.getD 3
    · rw [if_pos h3]
      exact findTrip_setTripStatus_other _ _ _ _ h
    · rw [if_neg h3]

/-- A full (uncut) settlement iteration is exactly the three-write
settlement of the trip at its maximum fare. -/
theorem settleTrip_none_eq (db : DB) (t : Trip) (pl : SettlePlan)
    (hp : planSettle db t = some pl) :
    settleTrip db t none =
      chargeFare db pl.rider pl.max_fare t.id TripStatus.AUTO_COMPLETED := by
  rw [settleTrip_shape db t none pl hp]
  simp [chargeFare, Option.getD]

/-! ### The end-of-shift loop -/
/-- The loop changes no trip row outside the listed trips. -/
theorem runShift_findTrip_other (failAt : Nat → Option Nat) (tid : Nat) :
    ∀ (l : List Trip) (i0 : Nat) (acc : DB), (∀ t ∈ l, t.id ≠ tid) →
      findTrip (runShift failAt i0 acc l).trips tid = findTrip acc.trips tid := by
  intro l
  induction l with
  | nil => intro i0 acc _; rfl
  | cons t rest ih =>
    intro i0 acc h
    simp only [runShift]
    rw [ih _ _ fun x hx => h x (List.mem_cons_of_mem _ hx)]
    exact settleTrip_findTrip_other _ _ _ _ (h t (List.mem_cons_self _ _)).symm

/-- The loop settles every listed trip whose own iteration is not hit by
the injected failure, no matter what happens to the other iterations. -/
theorem runShift_settles (db0 : DB) (failAt : Nat → Option Nat) :
    ∀ (l : List Trip) (i0 : Nat) (acc : DB),
      acc.route_stops = db0.route_stops →
      acc.routes = db0.routes →
      (∀ r, (findRider acc.users r).isSome = (findRider db0.users r).isSome) →
      List.Pairwise (fun a b => a.id ≠ b.id) l →
      (∀ t ∈ l, findTrip acc.trips t.id = some t) →
      (∀ t ∈ l, CanSettle db0 t) →
      ∀ i t, l[i]? = some t → failAt (i0 + i) = none →
        findTrip (runShift failAt i0 acc l).trips t.id =
          some { t with status := TripStatus.AUTO_COMPLETED } := by
  intro l
  induction l with
  | nil => intro i0 acc _ _ _ _ _ _ i t hi; simp at hi
  | cons t0 rest ih =>
    intro i0 acc hrs hrt hus hpw hft hcs i t hi hfail
    have hpw1 := List.pairwise_cons.mp hpw
    simp only [runShift]
    cases i with
    | zero =>
      rw [List.getElem?_cons_zero] at hi
      cases hi
      rw [Nat.add_zero] at hfail
      rw [hfail]
      obtain ⟨hrid, ts, rt, ls, hts0, hrt0, hls0⟩ := hcs t0 (List.mem_cons_self _ _)
      have hts : findRouteStop acc.route_stops t0.tap_on_route_stop_id = some ts := by
        rw [hrs]; exact hts0
      have hrta : findRoute acc.routes ts.route_id = some rt := by
        rw [hrt]; exact hrt0
      have hlsa : lastStop acc.route_stops ts.route_id = some ls := by
        rw [hrs]; exact hls0
      have hsome : (findRider acc.users t0.rider_id).isSome = true := by
        rw [hus]; exact hrid
      obtain ⟨rider, hrdr⟩ := Option.isSome_iff_exists.mp hsome
      have hplan := planSettle_eq acc t0 rider ts rt ls hrdr hts hrta hlsa
      rw [runShift_findTrip_other failAt t0.id rest _ _
        fun x hx => (hpw1.1 x hx).symm]
      rw [settleTrip_none_eq acc t0 _ hplan]
      exact findTrip_setTripStatus_self acc.trips t0.id _ t0
        (hft t0 (List.mem_cons_self _ _))
    | succ j =>
      rw [List.getElem?_cons_succ] at hi
      have harith : i0 + (j + 1) = (i0 + 1) + j := by omega
      rw [harith] at hfail
      apply ih (i0 + 1) (settleTrip acc t0 (failAt i0))
      · rw [settleTrip_route_stops]; exact hrs
      · rw [settleTrip_routes]; exact hrt
      · intro r; rw [settleTrip_rider_isSome]; exact hus r
      · exact hpw1.2
      · intro x hx
        rw [settleTrip_findTrip_other _ _ _ _ (hpw1.1 x hx).symm]
        exact hft x (List.mem_cons_of_mem _ hx)
      · intro x hx; exact hcs x (List.mem_cons_of_mem _ hx)
      · exact hi
      · exact hfail

/-- A failure-free loop appends exactly one maximum-fare RidePayment entry
per listed trip, in order. -/
theorem runShift_ledger (db0 : DB) :
    ∀ (l : List Trip) (i0 : Nat) (acc : DB),
      acc.route_stops = db0.route_stops →
      acc.routes = db0.routes →
      (∀ r, (findRider acc.users r).isSome = (findRider db0.users r).isSome) →
      (∀ t ∈ l, CanSettle db0 t) →
      (runShift noFailure i0 acc l).ledger = acc.ledger ++ l.map (entryFor db0) := by
  intro l
  induction l with
  | nil => intro i0 acc _ _ _ _; simp [runShift]
  | cons t0 rest ih =>
    intro i0 acc hrs hrt hus hcs
    simp only [runShift, noFailure]
    obtain ⟨hrid, ts, rt, ls, hts0, hrt0, hls0⟩ := hcs t0 (List.mem_cons_self _ _)
    have hts : findRouteStop acc.route_stops t0.tap_on_route_stop_id = some ts := by
      rw [hrs]; exact hts0
    have hrta : findRoute acc.routes ts.route_id = some rt := by
      rw [hrt]; exact hrt0
    have hlsa : lastStop acc.route_stops ts.route_id = some ls := by
      rw [hrs]; exact hls0
    have hsome : (findRider acc.users t0.rider_id).isSome = true := by
      rw [hus]; exact hrid
    obtain ⟨rider, hrdr⟩ := Option.isSome_iff_exists.mp hsome
    have hplan := planSettle_eq acc t0 rider ts rt ls hrdr hts hrta hlsa
    have hrs2 : (settleTrip acc t0 none).route_stops = db0.route_stops := by
      rw [settleTrip_route_stops]; exact hrs
    have hrt2 : (settleTrip acc t0 none).routes = db0.routes := by
      rw [settleTrip_routes]; exact hrt
    have hus2 : ∀ r, (findRider (settleTrip acc t0 none).users r).isSome =
        (findRider db0.users r).isSome := by
      intro r; rw [settleTrip_rider_isSome]; exact hus r
    have hcs2 : ∀ x ∈ rest, CanSettle db0 x :=
      fun x hx => hcs x (List.mem_cons_of_mem _ hx)
    rw [ih (i0 + 1) (settleTrip acc t0 none) hrs2 hrt2 hus2 hcs2]
    rw [settleTrip_none_eq acc t0 _ hplan]
    have hmf := maxFareOf_eq db0 t0 ts rt ls hts0 hrt0 hls0
    have hrid2 : rider.id = t0.rider_id := (findFirst_some hrdr).2
    simp [chargeFare, entryFor, hmf, hrid2]

/-- Appending one entry adds its amount to its rider's sum and nothing to
any other rider's. -/
theorem ledgerSum_append (l : List LedgerEntry) (e : LedgerEntry) (rid : Nat) :
    ledgerSum (l ++ [e]) rid =
      ledgerSum l rid + (if e.rider_id = rid then e.amount else 0) := by
  unfold ledgerSum
  rw [filterP_append]
  simp only [filterP]
  by_cases h : e.rider_id = rid
  · rw [if_pos h, if_pos h]
    simp
  · rw [if_neg h, if_neg h]
    simp

/-- A balance update keeps the list of rider ids unchanged. -/
theorem updateBalance_ids (users : List Rider) (rid : Nat) (nb : ℚ) :
    (updateBalance users rid nb).map Rider.id = users.map Rider.id := by
  unfold updateBalance
  rw [List.map_map]
  apply List.map_congr_left
  intro a _
  by_cases h : a.id = rid
  · simp only [Function.comp_apply, if_pos h]
  · simp only [Function.comp_apply, if_neg h]

/-- The three-write settlement keeps the rider table free of duplicate
ids. -/
theorem chargeFare_nodup (db : DB) (rider : Rider) (fare : ℚ) (tid : Nat)
    (st : TripStatus) (hnd : NodupIds db.users) :
    NodupIds (chargeFare db rider fare tid st).users := by
  unfold NodupIds at *
  rw [show (chargeFare db rider fare tid st).users =
    updateBalance db.users rider.id (rider.wallet_balance - fare) from rfl]
  rw [updateBalance_ids]
  exact hnd

/-- The three-write settlement debits the rider by exactly the amount of the
entry it appends, so it preserves the ledger-balance invariant. -/
theorem chargeFare_balinv (db : DB) (rider : Rider) (fare : ℚ) (tid : Nat)
    (st : TripStatus) (hinv : BalInv db) (hnd : NodupIds db.users)
    (hmem : rider ∈ db.users) :
    BalInv (chargeFare db rider fare tid st) := by
  intro u hu
  simp only [chargeFare, updateBalance] at hu
  rcases List.mem_map.mp hu with ⟨u0, hu0, rfl⟩
  simp only [chargeFare]
  by_cases h : u0.id = rider.id
  · rw [if_pos h]
    have he : u0 = rider := List.inj_on_of_nodup_map hnd hu0 hmem h
    subst he
    rw [ledgerSum_append, if_pos rfl]
    show u0.wallet_balance - fare = ledgerSum db.ledger u0.id + -fare
    rw [hinv u0 hu0]
    ring
  · rw [if_neg h]
    rw [ledgerSum_append, if_neg fun hh => h hh.symm, add_zero]
    exact hinv u0 hu0

/-- Inversion of the settlement reads: the planned rider is the rider-table
hit. -/
theorem planSettle_rider (db : DB) (t : Trip) (pl : SettlePlan)
    (h : planSettle db t = some pl) :
    findRider db.users t.rider_id = some pl.rider := by
  unfold planSettle at h
  cases hu : findRider db.users t.rider_id with
  | none => rw [hu] at h; simp at h
  | some rider =>
    cases hts : findRouteStop db.route_stops t.tap_on_route_stop_id with
    | none => rw [hu, hts] at h; simp at h
    | some ts =>
      rw [hu, hts] at h
      simp only [Option.some_inj] at h
      cases hrt : findRoute db.routes ts.route_id with
      | none => rw [hrt] at h; simp at h
      | some rt =>
        rw [hrt] at h
        cases hls : lastStop db.route_stops ts.route_id with
        | none => rw [hls] at h; simp at h
        | some ls =>
          rw [hls] at h
          simp only [Option.some_inj] at h
          rw [← h]

/-- One failure-free settlement iteration preserves the ledger-balance
invariant and the rider-id uniqueness. -/
theorem settleTrip_balinv (db : DB) (t : Trip) (hinv : BalInv db)
    (hnd : NodupIds db.users) :
    BalInv (settleTrip db t none) ∧ NodupIds (settleTrip db t none).users := by
  cases hp : planSettle db t with
  | none =>
    constructor
    · intro u hu
      have : (settleTrip db t none) = db := by simp [settleTrip, hp]
      rw [this] at hu ⊢
      exact hinv u hu
    · have : (settleTrip db t none) = db := by simp [settleTrip, hp]
      rw [this]
      exact hnd
  | some pl =>
    rw [settleTrip_none_eq db t pl hp]
    have hmem : pl.rider ∈ db.users := (findFirst_some (planSettle_rider db t pl hp)).1
    exact ⟨chargeFare_balinv _ _ _ _ _ hinv hnd hmem,
           chargeFare_nodup _ _ _ _ _ hnd⟩

/-- The whole failure-free end-of-shift loop preserves the ledger-balance
invariant. -/
theorem runShift_balinv :
    ∀ (l : List Trip) (i0 : Nat) (acc : DB), BalInv acc → NodupIds acc.users →
      BalInv (runShift noFailure i0 acc l) := by
  intro l
  induction l with
  | nil => intro i0 acc h _; exact h
  | cons t rest ih =>
    intro i0 acc h hnd
    simp only [runShift, noFailure]
    exact ih _ _ (settleTrip_balinv acc t h hnd).1 (settleTrip_balinv acc t h hnd).2

/-- Closing any trip cannot raise any rider's number of active trips. -/
theorem activeFor_setTripStatus_le (trips : List Trip) (tid : Nat)
    (st : TripStatus) (hst : st ≠ TripStatus.ACTIVE) (rid : Nat) :
    (activeFor (setTripStatus trips tid st) rid).length ≤
      (activeFor trips rid).length := by
  unfold activeFor setTripStatus
  rw [filterP_map, List.length_map]
  apply filterP_length_mono
  intro t ht
  obtain ⟨h1, h2⟩ := ht
  by_cases h : t.id = tid
  · rw [if_pos h] at h2
    exact absurd h2 hst
  · rw [if_neg h] at h1 h2
    exact ⟨h1, h2⟩

/-- Active trips of an appended table split at the append. -/
theorem activeFor_append (l1 l2 : List Trip) (rid : Nat) :
    activeFor (l1 ++ l2) rid = activeFor l1 rid ++ activeFor l2 rid :=
  filterP_append _ l1 l2

/-- A rider with no active-trip hit has no active trips. -/
theorem activeFor_nil_of_none (trips : List Trip) (rid : Nat)
    (h : findActiveTrip trips rid = none) : activeFor trips rid = [] :=
  filterP_eq_nil (findFirst_none h)

/-- Under the invariant, the active-trip hit is the rider's only active
trip. -/
theorem activeFor_singleton (trips : List Trip) (rid : Nat) (trip : Trip)
    (h : findActiveTrip trips rid = some trip)
    (hle : (activeFor trips rid).length ≤ 1) : activeFor trips rid = [trip] := by
  obtain ⟨hm, hp⟩ := findFirst_some h
  exact eq_singleton_of_mem_of_length_le ((mem_filterP _ _ _).mpr ⟨hm, hp⟩) hle

/-- Closing a rider's only active trip leaves the rider with none. -/
theorem activeFor_close (trips : List Trip) (rid : Nat) (trip : Trip)
    (hact : activeFor trips rid = [trip]) (st : TripStatus)
    (hst : st ≠ TripStatus.ACTIVE) :
    activeFor (setTripStatus trips trip.id st) rid = [] := by
  unfold activeFor setTripStatus
  rw [filterP_map, List.map_eq_nil_iff]
  apply filterP_eq_nil
  intro t ht hcon
  obtain ⟨h1, h2⟩ := hcon
  by_cases h : t.id = trip.id
  · rw [if_pos h] at h2
    exact hst h2
  · rw [if_neg h] at h1 h2
    have hmem : t ∈ activeFor trips rid := (mem_filterP _ _ _).mpr ⟨ht, h1, h2⟩
    rw [hact] at hmem
    rcases List.mem_singleton.mp hmem with rfl
    exact h rfl

/-- A settlement iteration cannot raise any rider's number of active
trips, wherever the failure cut falls. -/
theorem settleTrip_active_le (db : DB) (t : Trip) (cut : Option Nat)
    (rid : Nat) :
    (activeFor (settleTrip db t cut).trips rid).length ≤
      (activeFor db.trips rid).length := by
  cases hp : planSettle db t with
  | none => simp [settleTrip, hp]
  | some pl =>
    rw [settleTrip_shape db t cut pl hp]
    dsimp only
    by_cases h3 : 3 ≤ cut.getD 3
    · rw [if_pos h3]
      exact activeFor_setTripStatus_le _ _ _ (by decide) rid
    · rw [if_neg h3]

/-- The end-of-shift loop cannot raise any rider's number of active
trips. -/
theorem runShift_active_le (failAt : Nat → Option Nat) :
    ∀ (l : List Trip) (i0 : Nat) (acc : DB) (rid : Nat),
      (activeFor (runShift failAt i0 acc l).trips rid).length ≤
        (activeFor acc.trips rid).length := by
  intro l
  induction l with
  | nil => intro i0 acc rid; exact Nat.le_refl _
  | cons t rest ih =>
    intro i0 acc rid
    simp only [runShift]
    exact Nat.le_trans (ih _ _ rid) (settleTrip_active_le _ _ _ rid)

/-! ### Preservation of the invariants by a tap event -/
/-- Every branch of a tap event preserves the ledger-balance invariant. -/
theorem process_tap_balinv (db : DB) (rid rsid sh nid : Nat)
    (hinv : BalInv db) (hnd : NodupIds db.users) :
    BalInv (process_rider_tap db rid rsid sh nid).1 := by
  cases hr : findRider db.users rid with
  | none => simp only [process_rider_tap, hr]; exact hinv
  | some rider =>
    have hmem : rider ∈ db.users := (findFirst_some hr).1
    cases hcs : findRouteStop db.route_stops rsid with
    | none => simp only [process_rider_tap, hr, hcs]; exact hinv
    | some cs =>
      cases hrt : findRoute db.routes cs.route_id with
      | none => simp only [process_rider_tap, hr, hcs, hrt]; exact hinv
      | some rt =>
        cases hat : findActiveTrip db.trips rider.id with
        | none =>
          by_cases hlow : rider.wallet_balance < rt.base_fare
          · rw [tap_on_insufficient db rid rsid sh nid rider cs rt hr hcs hrt hat hlow]
            exact hinv
          · rw [tap_on_success db rid rsid sh nid rider cs rt hr hcs hrt hat hlow]
            intro u hu
            exact hinv u hu
        | some trip =>
          cases hts : findRouteStop db.route_stops trip.tap_on_route_stop_id with
          | none => simp only [process_rider_tap, hr, hcs, hrt, hat, hts]; exact hinv
          | some ts =>
            by_cases heq : trip.tap_on_route_stop_id = cs.id
            · rw [tap_already_on db rid rsid sh nid rider cs rt trip hr hcs hrt hat heq]
              exact hinv
            · by_cases hsame : ts.route_id = cs.route_id
              · rw [tap_off_eq db rid rsid sh nid rider cs rt trip ts hr hcs hrt hat hts heq hsame]
                exact chargeFare_balinv _ _ _ _ _ hinv hnd hmem
              · cases hls : lastStop db.route_stops ts.route_id with
                | none =>
                  simp only [process_rider_tap, hr, hcs, hrt, hat, hts]
                  rw [if_neg heq, if_neg hsame]
                  cases hort : findRoute db.routes ts.route_id <;>
                    simp only [hls, hort] <;> exact hinv
                | some ls =>
                  cases hort : findRoute db.routes ts.route_id with
                  | none =>
                    simp only [process_rider_tap, hr, hcs, hrt, hat, hts]
                    rw [if_neg heq, if_neg hsame]
                    simp only [hls, hort]
                    exact hinv
                  | some ort =>
                    by_cases hlow : rider.wallet_balance - round2 (ort.base_fare +
                        |ls.distance_from_start - ts.distance_from_start| *
                          ort.price_per_km) < rt.base_fare
                    · rw [tap_forced_insufficient db rid rsid sh nid rider cs rt trip
                        ts ls ort hr hcs hrt hat hts heq hsame hls hort hlow]
                      exact hinv
                    · rw [tap_forced_then_on db rid rsid sh nid rider cs rt trip
                        ts ls ort hr hcs hrt hat hts heq hsame hls hort hlow]
                      intro u hu
                      exact chargeFare_balinv db rider _ trip.id
                        TripStatus.AUTO_COMPLETED hinv hnd hmem u hu

/-- Every branch of a tap event preserves the single-active-trip
invariant. -/
theorem process_tap_activeinv (db : DB) (rid rsid sh nid : Nat)
    (hinv : ActiveInv db) :
    ActiveInv (process_rider_tap db rid rsid sh nid).1 := by
  cases hr : findRider db.users rid with
  | none => simp only [process_rider_tap, hr]; exact hinv
  | some rider =>
    cases hcs : findRouteStop db.route_stops rsid with
    | none => simp only [process_rider_tap, hr, hcs]; exact hinv
    | some cs =>
      cases hrt : findRoute db.routes cs.route_id with
      | none => simp only [process_rider_tap, hr, hcs, hrt]; exact hinv
      | some rt =>
        cases hat : findActiveTrip db.trips rider.id with
        | none =>
          by_cases hlow : rider.wallet_balance < rt.base_fare
          · rw [tap_on_insufficient db rid rsid sh nid rider cs rt hr hcs hrt hat hlow]
            exact hinv
          · rw [tap_on_success db rid rsid sh nid rider cs rt hr hcs hrt hat hlow]
            intro r
            show (activeFor (db.trips ++
              [{ id := nid, rider_id := rider.id, shuttle_id := sh,
                 tap_on_route_stop_id := cs.id, status := TripStatus.ACTIVE }]) r).length ≤ 1
            by_cases hrr : r = rider.id
            · subst hrr
              rw [activeFor_append, activeFor_nil_of_none db.trips rider.id hat]
              simp [activeFor, filterP]
            · have h2 : activeFor
                  [{ id := nid, rider_id := rider.id, shuttle_id := sh,
                     tap_on_route_stop_id := cs.id, status := TripStatus.ACTIVE }] r = [] := by
                apply filterP_eq_nil
                intro a ha hcon
                rcases List.mem_singleton.mp ha with rfl
                exact hrr hcon.1.symm
              rw [activeFor_append, h2, List.length_append]
              simpa using hinv r
        | some trip =>
          cases hts : findRouteStop db.route_stops trip.tap_on_route_stop_id with
          | none => simp only [process_rider_tap, hr, hcs, hrt, hat, hts]; exact hinv
          | some ts =>
            by_cases heq : trip.tap_on_route_stop_id = cs.id
            · rw [tap_already_on db rid rsid sh nid rider cs rt trip hr hcs hrt hat heq]
              exact hinv
            · by_cases hsame : ts.route_id = cs.route_id
              · rw [tap_off_eq db rid rsid sh nid rider cs rt trip ts hr hcs hrt hat hts heq hsame]
                intro r
                show (activeFor (setTripStatus db.trips trip.id TripStatus.COMPLETED) r).length ≤ 1
                exact Nat.le_trans (activeFor_setTripStatus_le db.trips trip.id
                  TripStatus.COMPLETED (by decide) r) (hinv r)
              · cases hls : lastStop db.route_stops ts.route_id with
                | none =>
                  simp only [process_rider_tap, hr, hcs, hrt, hat, hts]
                  rw [if_neg heq, if_neg hsame]
                  cases hort : findRoute db.routes ts.route_id <;>
                    simp only [hls, hort] <;> exact hinv
                | some ls =>
                  cases hort : findRoute db.routes ts.route_id with
                  | none =>
                    simp only [process_rider_tap, hr, hcs, hrt, hat, hts]
                    rw [if_neg heq, if_neg hsame]
                    simp only [hls, hort]
                    exact hinv
                  | some ort =>
                    by_cases hlow : rider.wallet_balance - round2 (ort.base_fare +
                        |ls.distance_from_start - ts.distance_from_start| *
                          ort.price_per_km) < rt.base_fare
                    · rw [tap_forced_insufficient db rid rsid sh nid rider cs rt trip
                        ts ls ort hr hcs hrt hat hts heq hsame hls hort hlow]
                      exact hinv
                    · rw [tap_forced_then_on db rid rsid sh nid rider cs rt trip
                        ts ls ort hr hcs hrt hat hts heq hsame hls hort hlow]
                      intro r
                      show (activeFor
                        (setTripStatus db.trips trip.id TripStatus.AUTO_COMPLETED ++
                          [{ id := nid, rider_id := rider.id, shuttle_id := sh,
                             tap_on_route_stop_id := cs.id,
                             status := TripStatus.ACTIVE }]) r).length ≤ 1
                      by_cases hrr : r = rider.id
                      · subst hrr
                        have hact := activeFor_singleton db.trips rider.id trip hat
                          (hinv rider.id)
                        rw [activeFor_append,
                          activeFor_close db.trips rider.id trip hact
                            TripStatus.AUTO_COMPLETED (by decide)]
                        simp [activeFor, filterP]
                      · have h2 : activeFor
                            [{ id := nid, rider_id := rider.id, shuttle_id := sh,
                               tap_on_route_stop_id := cs.id,
                               status := TripStatus.ACTIVE }] r = [] := by
                          apply filterP_eq_nil
                          intro a ha hcon
                          rcases List.mem_singleton.mp ha with rfl
                          exact hrr hcon.1.symm
                        rw [activeFor_append, h2, List.length_append]
                        have hb := Nat.le_trans (activeFor_setTripStatus_le db.trips
                          trip.id TripStatus.AUTO_COMPLETED (by decide) r) (hinv r)
                        simpa using hb

/-! ### The terminal stop is the one with the highest stop order -/
/-- The fold underlying `lastStop` returns one of the candidates. -/
theorem foldl_pickLater_mem :
    ∀ (rest : List RouteStop) (s : RouteStop), rest.foldl pickLater s ∈ s :: rest := by
  intro rest
  induction rest with
  | nil => intro s; exact List.mem_singleton.mpr rfl
  | cons b l ih =>
    intro s
    rw [List.foldl_cons]
    rcases List.mem_cons.mp (ih (pickLater s b)) with he | hm
    · rw [he]
      unfold pickLater
      split
      · exact List.mem_cons_of_mem _ (List.mem_cons_self _ _)
      · exact List.mem_cons_self _ _
    · exact List.mem_cons_of_mem _ (List.mem_cons_of_mem _ hm)

/-- The fold underlying `lastStop` dominates every candidate's stop
order. -/
theorem foldl_pickLater_ge :
    ∀ (rest : List RouteStop) (s : RouteStop),
      s.stop_order ≤ (rest.foldl pickLater s).stop_order ∧
      ∀ x ∈ rest, x.stop_order ≤ (rest.foldl pickLater s).stop_order := by
  intro rest
  induction rest with
  | nil =>
    intro s
    exact ⟨Nat.le_refl _, fun x hx => absurd hx (List.not_mem_nil x)⟩
  | cons b l ih =>
    intro s
    rw [List.foldl_cons]
    obtain ⟨h1, h2⟩ := ih (pickLater s b)
    refine ⟨Nat.le_trans ?_ h1, ?_⟩
    · unfold pickLater
      split <;> omega
    · intro x hx
      rcases List.mem_cons.mp hx with rfl | hm
      · refine Nat.le_trans ?_ h1
        unfold pickLater
        split <;> omega
      · exact h2 x hm

/-- The stop `lastStop` returns lies on the route and carries the highest
stop order among the route's stops. -/
theorem lastStop_spec (stops : List RouteStop) (rtid : Nat) (ls : RouteStop)
    (h : lastStop stops rtid = some ls) :
    ls ∈ stops ∧ ls.route_id = rtid ∧
      ∀ rs ∈ stops, rs.route_id = rtid → rs.stop_order ≤ ls.stop_order := by
  unfold lastStop at h
  cases hf : filterP (fun rs => rs.route_id = rtid) stops with
  | nil => rw [hf] at h; cases h
  | cons s rest =>
    rw [hf] at h
    simp only [Option.some_inj] at h
    subst h
    have hin : rest.foldl pickLater s ∈ filterP (fun rs => rs.route_id = rtid) stops := by
      rw [hf]; exact foldl_pickLater_mem rest s
    have hfl := (mem_filterP _ _ _).mp hin
    refine ⟨hfl.1, hfl.2, ?_⟩
    intro rs hrs hrid
    have hm2 : rs ∈ filterP (fun x => x.route_id = rtid) stops :=
      (mem_filterP _ _ _).mpr ⟨hrs, hrid⟩
    rw [hf] at hm2
    rcases List.mem_cons.mp hm2 with rfl | hm
    · exact (foldl_pickLater_ge rest rs).1
    · exact (foldl_pickLater_ge rest s).2 rs hm

/-! ### Uniqueness of trip rows -/
/-- In a table with pairwise-distinct ids, every row is its own lookup
hit. -/
theorem findTrip_of_pairwise (trips : List Trip)
    (hnd : trips.Pairwise (fun a b => a.id ≠ b.id)) :
    ∀ t ∈ trips, findTrip trips t.id = some t := by
  induction trips with
  | nil => intro t ht; cases ht
  | cons b l ih =>
    intro t ht
    have hpc := List.pairwise_cons.mp hnd
    unfold findTrip findFirst
    rcases List.mem_cons.mp ht with rfl | hm
    · rw [if_pos rfl]
    · rw [if_neg (hpc.1 t hm)]
      exact ih hpc.2 t hm

/-- Filtering keeps rows pairwise related. -/
theorem filterP_pairwise {α : Type} {R : α → α → Prop} (p : α → Prop)
    [DecidablePred p] :
    ∀ {l : List α}, l.Pairwise R → (filterP p l).Pairwise R := by
  intro l
  induction l with
  | nil => intro _; exact List.Pairwise.nil
  | cons b l ih =>
    intro h
    have hpc := List.pairwise_cons.mp h
    rw [filterP]
    by_cases hb : p b
    · rw [if_pos hb]
      exact List.pairwise_cons.mpr
        ⟨fun x hx => hpc.1 x ((mem_filterP p l x).mp hx).1, ih hpc.2⟩
    · rw [if_neg hb]
      exact ih hpc.2

/-- Pinned value: the maximum fare from stop 1 to the 2.1 km terminal stop
of route 10 is 0.50 + 2.1 by 0.25 = 1.025, rounded half-to-even to 1.02. -/
theorem round2_val_max : round2 ((41:ℚ)/40) = 51/50 := by
  rw [round2_eq_half_even ((41:ℚ)/40) 102 (by norm_num) (by decide)]
  norm_num

/-- Pinned value: the tap-off fare over 1.5 km on route 10 is 0.50 + 1.5 by
0.25 = 0.875, rounded half-to-even to 0.88. -/
theorem round2_val_off : round2 ((7:ℚ)/8) = 22/25 := by
  rw [round2_eq_half_odd ((7:ℚ)/8) 87 (by norm_num) (by decide)]
  norm_num

/-! ### The claims -/
/-- C7: when the rider's active trip was tapped on at the very route stop
being tapped now, the tap is an idempotent no-op: the committed store is
returned unchanged (no ledger entry, no balance change, no trip change) and
the outcome is the duplicate-tap rejection. -/
theorem C7_duplicate_tap_noop (db : DB) (rid rsid sh nid : Nat)
    (rider : Rider) (cs : RouteStop) (rt : Route) (trip : Trip)
    (hr : findRider db.users rid = some rider)
    (hcs : findRouteStop db.route_stops rsid = some cs)
    (hrt : findRoute db.routes cs.route_id = some rt)
    (hat : findActiveTrip db.trips rider.id = some trip)
    (heq : trip.tap_on_route_stop_id = cs.id) :
    process_rider_tap db rid rsid sh nid = (db, TapResult.AlreadyTappedOn) :=
  tap_already_on db rid rsid sh nid rider cs rt trip hr hcs hrt hat heq

/-- Witness for C7: the rider of `dbTapOff` taps again at their tap-on
stop 1; the store is unchanged and the tap reports the duplicate. -/
theorem C7_witness :
    process_rider_tap dbTapOff 1 1 5 99 = (dbTapOff, TapResult.AlreadyTappedOn) :=
  C7_duplicate_tap_noop dbTapOff 1 1 5 99 ⟨1, 3/10⟩ ⟨1, 10, 1, 0⟩ ⟨10, 1/2, 1/4⟩
    ⟨1, 1, 5, 1, TripStatus.ACTIVE⟩
    (by simp [dbTapOff, findRider, findFirst])
    (by simp [dbTapOff, findRouteStop, findFirst])
    (by simp [dbTapOff, findRoute, findFirst])
    (by simp [dbTapOff, findActiveTrip, findFirst])
    rfl

/-- C8: a tap-on attempt (rider found, no active trip) with wallet balance
strictly below the current route's base fare is rejected with no state
change at all; with balance at least the base fare it opens exactly one new
ACTIVE trip recording the current route stop, with no ledger entry and no
balance change. -/
theorem C8_tap_on_funds_check (db : DB) (rid rsid sh nid : Nat)
    (rider : Rider) (cs : RouteStop) (rt : Route)
    (hr : findRider db.users rid = some rider)
    (hcs : findRouteStop db.route_stops rsid = some cs)
    (hrt : findRoute db.routes cs.route_id = some rt)
    (hat : findActiveTrip db.trips rider.id = none) :
    (rider.wallet_balance < rt.base_fare →
      process_rider_tap db rid rsid sh nid = (db, TapResult.InsufficientFunds)) ∧
    (rt.base_fare ≤ rider.wallet_balance →
      process_rider_tap db rid rsid sh nid =
        ({ db with trips := db.trips ++
            [{ id := nid, rider_id := rider.id, shuttle_id := sh,
               tap_on_route_stop_id := cs.id, status := TripStatus.ACTIVE }] },
         TapResult.TappedOn)) := by
  constructor
  · intro hlow
    exact tap_on_insufficient db rid rsid sh nid rider cs rt hr hcs hrt hat hlow
  · intro hge
    exact tap_on_success db rid rsid sh nid rider cs rt hr hcs hrt hat (not_lt.mpr hge)

/-- Witness for C8: in `dbFresh`, rider 1 (0.30 against base fare 0.50) is
rejected with the store unchanged, while rider 2 (2.00) opens a new ACTIVE
trip at stop 1. -/
theorem C8_witness :
    process_rider_tap dbFresh 1 1 5 99 = (dbFresh, TapResult.InsufficientFunds) ∧
    process_rider_tap dbFresh 2 1 5 99 =
      ({ dbFresh with trips := dbFresh.trips ++
          [{ id := 99, rider_id := 2, shuttle_id := 5,
             tap_on_route_stop_id := 1, status := TripStatus.ACTIVE }] },
       TapResult.TappedOn) := by
  constructor
  · exact (C8_tap_on_funds_check dbFresh 1 1 5 99 ⟨1, 3/10⟩ ⟨1, 10, 1, 0⟩
      ⟨10, 1/2, 1/4⟩
      (by simp [dbFresh, findRider, findFirst])
      (by simp [dbFresh, findRouteStop, findFirst])
      (by simp [dbFresh, findRoute, findFirst])
      (by simp [dbFresh, findActiveTrip, findFirst])).1 (by norm_num)
  · exact (C8_tap_on_funds_check dbFresh 2 1 5 99 ⟨2, 2⟩ ⟨1, 10, 1, 0⟩
      ⟨10, 1/2, 1/4⟩
      (by simp [dbFresh, findRider, findFirst])
      (by simp [dbFresh, findRouteStop, findFirst])
      (by simp [dbFresh, findRoute, findFirst])
      (by simp [dbFresh, findActiveTrip, findFirst])).2 (by norm_num)

/-- C3: a tap with an active trip, at a different route stop of the tap-on
stop's route, settles as a tap-off: the outcome carries the fare
round2(base_fare + price_per_km times distance between the two stops) on
that route's pricing; the rider is debited by exactly that fare; exactly
one RidePayment entry for amount minus-fare with the trip's id is appended;
and every row of the trip is set to COMPLETED while all other trips'
rows are untouched. -/
theorem C3_tap_off_settlement (db : DB) (rid rsid sh nid : Nat)
    (rider : Rider) (cs : RouteStop) (rt : Route) (trip : Trip) (ts : RouteStop)
    (hr : findRider db.users rid = some rider)
    (hcs : findRouteStop db.route_stops rsid = some cs)
    (hrt : findRoute db.routes cs.route_id = some rt)
    (hat : findActiveTrip db.trips rider.id = some trip)
    (hts : findRouteStop db.route_stops trip.tap_on_route_stop_id = some ts)
    (hne : trip.tap_on_route_stop_id ≠ cs.id)
    (hsame : ts.route_id = cs.route_id) :
    (process_rider_tap db rid rsid sh nid).2 =
      TapResult.TappedOff (round2 (rt.base_fare +
        |cs.distance_from_start - ts.distance_from_start| * rt.price_per_km)) ∧
    (process_rider_tap db rid rsid sh nid).1.ledger = db.ledger ++
      [⟨rider.id, -(round2 (rt.base_fare +
        |cs.distance_from_start - ts.distance_from_start| * rt.price_per_km)),
        TransactionType.RIDE_PAYMENT, some trip.id⟩] ∧
    findRider (process_rider_tap db rid rsid sh nid).1.users rider.id =
      some { rider with wallet_balance := rider.wallet_balance - round2 (rt.base_fare +
        |cs.distance_from_start - ts.distance_from_start| * rt.price_per_km) } ∧
    (∀ t2 ∈ (process_rider_tap db rid rsid sh nid).1.trips,
      t2.id = trip.id → t2.status = TripStatus.COMPLETED) ∧
    { trip with status := TripStatus.COMPLETED } ∈
      (process_rider_tap db rid rsid sh nid).1.trips ∧
    (∀ tid2, tid2 ≠ trip.id →
      findTrip (process_rider_tap db rid rsid sh nid).1.trips tid2 =
        findTrip db.trips tid2) := by
  rw [tap_off_eq db rid rsid sh nid rider cs rt trip ts hr hcs hrt hat hts hne hsame]
  have hr2 : findRider db.users rider.id = some rider := by
    rw [(findFirst_some hr).2]; exact hr
  refine ⟨rfl, rfl, ?_, ?_, ?_, ?_⟩
  · exact findRider_updateBalance_self db.users rider.id _ rider hr2
  · exact mem_setTripStatus_status db.trips trip.id TripStatus.COMPLETED
  · exact mem_setTripStatus_of_mem db.trips trip.id TripStatus.COMPLETED trip
      (findFirst_some hat).1 rfl
  · intro tid2 h2
    exact findTrip_setTripStatus_other db.trips trip.id tid2 TripStatus.COMPLETED h2

/-- Witness for C3: in `dbTapOff` the rider taps off at stop 2 (1.5 km):
fare 0.88, one ledger entry of minus 0.88 for trip 1, balance debited from
0.30 to minus 0.58. -/
theorem C3_witness :
    (process_rider_tap dbTapOff 1 2 5 99).2 = TapResult.TappedOff (22/25) ∧
    (process_rider_tap dbTapOff 1 2 5 99).1.ledger = dbTapOff.ledger ++
      [⟨1, -(22/25), TransactionType.RIDE_PAYMENT, some 1⟩] ∧
    findRider (process_rider_tap dbTapOff 1 2 5 99).1.users 1 =
      some ⟨1, -(29/50)⟩ := by
  have h := C3_tap_off_settlement dbTapOff 1 2 5 99 ⟨1, 3/10⟩ ⟨2, 10, 2, 3/2⟩
    ⟨10, 1/2, 1/4⟩ ⟨1, 1, 5, 1, TripStatus.ACTIVE⟩ ⟨1, 10, 1, 0⟩
    (by simp [dbTapOff, findRider, findFirst])
    (by simp [dbTapOff, findRouteStop, findFirst])
    (by simp [dbTapOff, findRoute, findFirst])
    (by simp [dbTapOff, findActiveTrip, findFirst])
    (by simp [dbTapOff, findRouteStop, findFirst])
    (by decide) rfl
  obtain ⟨h1, h2, h3, _⟩ := h
  refine ⟨?_, ?_, ?_⟩
  · rw [h1]; norm_num [round2_val_off, abs_of_nonneg]
  · rw [h2]; norm_num [round2_val_off, abs_of_nonneg]
  · rw [h3]; norm_num [round2_val_off, abs_of_nonneg]

/-- C4: every forced settlement charges the maximum fare of the OLD trip's
route: the terminal stop returned by the store is the route stop with the
highest stop order on that route, and both the mismatched-route re-tap (in
its committed case) and the end-of-shift settlement append a RidePayment
entry of exactly minus round2(base_fare + price_per_km times the distance
from the tap-on stop to that terminal stop), on the old route's pricing,
independent of the stop where the mismatched tap occurred. -/
theorem C4_max_fare_terminal_stop :
    (∀ (stops : List RouteStop) (rtid : Nat) (ls : RouteStop),
      lastStop stops rtid = some ls →
        ls ∈ stops ∧ ls.route_id = rtid ∧
        ∀ rs ∈ stops, rs.route_id = rtid → rs.stop_order ≤ ls.stop_order) ∧
    (∀ (db : DB) (rid rsid sh nid : Nat) (rider : Rider) (cs : RouteStop)
        (rt : Route) (trip : Trip) (ts : RouteStop) (ls : RouteStop) (ort : Route),
      findRider db.users rid = some rider →
      findRouteStop db.route_stops rsid = some cs →
      findRoute db.routes cs.route_id = some rt →
      findActiveTrip db.trips rider.id = some trip →
      findRouteStop db.route_stops trip.tap_on_route_stop_id = some ts →
      trip.tap_on_route_stop_id ≠ cs.id →
      ts.route_id ≠ cs.route_id →
      lastStop db.route_stops ts.route_id = some ls →
      findRoute db.routes ts.route_id = some ort →
      ¬ rider.wallet_balance - round2 (ort.base_fare +
        |ls.distance_from_start - ts.distance_from_start| * ort.price_per_km) <
          rt.base_fare →
      (process_rider_tap db rid rsid sh nid).2 =
        TapResult.ForcedOffThenTappedOn (round2 (ort.base_fare +
          |ls.distance_from_start - ts.distance_from_start| * ort.price_per_km)) ∧
      (process_rider_tap db rid rsid sh nid).1.ledger = db.ledger ++
        [⟨rider.id, -(round2 (ort.base_fare +
          |ls.distance_from_start - ts.distance_from_start| * ort.price_per_km)),
          TransactionType.RIDE_PAYMENT, some trip.id⟩]) ∧
    (∀ (db : DB) (t : Trip) (rider : Rider) (ts : RouteStop) (rt : Route)
        (ls : RouteStop),
      findRider db.users t.rider_id = some rider →
      findRouteStop db.route_stops t.tap_on_route_stop_id = some ts →
      findRoute db.routes ts.route_id = some rt →
      lastStop db.route_stops ts.route_id = some ls →
      (settleTrip db t none).ledger = db.ledger ++
        [⟨rider.id, -(round2 (rt.base_fare +
          |ls.distance_from_start - ts.distance_from_start| * rt.price_per_km)),
          TransactionType.RIDE_PAYMENT, some t.id⟩]) := by
  refine ⟨lastStop_spec, ?_, ?_⟩
  · intro db rid rsid sh nid rider cs rt trip ts ls ort hr hcs hrt hat hts hne
      hdiff hls hort hok
    rw [tap_forced_then_on db rid rsid sh nid rider cs rt trip ts ls ort
      hr hcs hrt hat hts hne hdiff hls hort hok]
    exact ⟨rfl, rfl⟩
  · intro db t rider ts rt ls hr hts hrt hls
    rw [settleTrip_none_eq db t
      { rider := rider,
        max_fare := round2 (rt.base_fare +
          |ls.distance_from_start - ts.distance_from_start| * rt.price_per_km) }
      (planSettle_eq db t rider ts rt ls hr hts hrt hls)]
    rfl

/-- Witness for C4: settling the active trip of `dbShift` at end of shift
appends one RidePayment entry of minus 1.02, the maximum fare from stop 1
to the terminal stop 2.1 km out. -/
theorem C4_witness :
    (settleTrip dbShift ⟨1, 1, 5, 1, TripStatus.ACTIVE⟩ none).ledger =
      dbShift.ledger ++ [⟨1, -(51/50), TransactionType.RIDE_PAYMENT, some 1⟩] := by
  have h := C4_max_fare_terminal_stop.2.2 dbShift ⟨1, 1, 5, 1, TripStatus.ACTIVE⟩
    ⟨1, 10⟩ ⟨1, 10, 1, 0⟩ ⟨10, 1/2, 1/4⟩ ⟨2, 10, 2, 21/10⟩
    (by simp [dbShift, findRider, findFirst])
    (by simp [dbShift, findRouteStop, findFirst])
    (by simp [dbShift, findRoute, findFirst])
    (by simp [dbShift, lastStop, filterP, pickLater])
  rw [h]
  norm_num [round2_val_max, abs_of_nonneg]

/-- C5: both engine operations preserve the invariant that every rider's
cached wallet balance equals the sum of the ledger entries recorded for
them: a tap event (any branch) and a failure-free end-of-shift settlement
change each balance by exactly the amounts they append for that rider. -/
theorem C5_balance_ledger_invariant (db : DB) (rid rsid sh nid sh2 : Nat)
    (hinv : BalInv db) (hnd : NodupIds db.users) :
    BalInv (process_rider_tap db rid rsid sh nid).1 ∧
    BalInv (handle_end_of_shift db sh2 noFailure) := by
  refine ⟨process_tap_balinv db rid rsid sh nid hinv hnd, ?_⟩
  unfold handle_end_of_shift
  exact runShift_balinv _ 0 db hinv hnd

/-- Witness for C5: `dbShift` satisfies the invariant (balance 10 equals
its one AddFunds entry), and both a tap-off at stop 2 and the end-of-shift
settlement keep it. -/
theorem C5_witness :
    (BalInv dbShift ∧ NodupIds dbShift.users) ∧
    BalInv (process_rider_tap dbShift 1 2 5 99).1 ∧
    BalInv (handle_end_of_shift dbShift 5 noFailure) := by
  have hA : BalInv dbShift := by
    intro u hu
    simp only [dbShift] at hu
    rcases List.mem_singleton.mp hu with rfl
    simp [ledgerSum, filterP, dbShift]
  have hB : NodupIds dbShift.users := by
    simp [NodupIds, dbShift]
  exact ⟨⟨hA, hB⟩, C5_balance_ledger_invariant dbShift 1 2 5 99 5 hA hB⟩

/-- C6: both engine operations preserve the invariant that every rider has
at most one ACTIVE trip: a tap event opens a trip only for a rider with no
active trip or whose active trip it closed in the same step, and the
end-of-shift settlement only closes trips, under any injected failure. -/
theorem C6_single_active_trip (db : DB) (rid rsid sh nid sh2 : Nat)
    (failAt : Nat → Option Nat) (hinv : ActiveInv db) :
    ActiveInv (process_rider_tap db rid rsid sh nid).1 ∧
    ActiveInv (handle_end_of_shift db sh2 failAt) := by
  refine ⟨process_tap_activeinv db rid rsid sh nid hinv, ?_⟩
  intro r
  unfold handle_end_of_shift
  exact Nat.le_trans (runShift_active_le failAt _ 0 db r) (hinv r)

/-- Witness for C6: `dbMismatch` satisfies the invariant, and both a
mismatched-route tap at stop 3 and an end-of-shift settlement keep it. -/
theorem C6_witness :
    ActiveInv dbMismatch ∧
    ActiveInv (process_rider_tap dbMismatch 1 3 5 99).1 ∧
    ActiveInv (handle_end_of_shift dbMismatch 5 noFailure) := by
  have hA : ActiveInv dbMismatch := by
    intro r
    simp only [dbMismatch, activeFor, filterP]
    split <;> simp
  exact ⟨hA, C6_single_active_trip dbMismatch 1 3 5 99 5 noFailure hA⟩

/-- C9: end-of-shift settlement visits every ACTIVE trip of the shuttle
exactly once — the failure-free run appends exactly one maximum-fare
RidePayment entry per active trip, in order — and trip settlements are
isolated: under any injected per-iteration store failure, every active trip
whose own iteration is not hit is still settled to AUTO_COMPLETED. -/
theorem C9_shift_visits_each_trip_once (db : DB) (sh2 : Nat)
    (failAt : Nat → Option Nat)
    (hnd : db.trips.Pairwise (fun a b => a.id ≠ b.id))
    (hok : ∀ t ∈ activeTripsOn db sh2, CanSettle db t) :
    ((handle_end_of_shift db sh2 noFailure).ledger =
      db.ledger ++ (activeTripsOn db sh2).map (entryFor db)) ∧
    (∀ i t, (activeTripsOn db sh2)[i]? = some t → failAt i = none →
      findTrip (handle_end_of_shift db sh2 failAt).trips t.id =
        some { t with status := TripStatus.AUTO_COMPLETED }) := by
  have hpw : (activeTripsOn db sh2).Pairwise (fun a b => a.id ≠ b.id) :=
    filterP_pairwise _ hnd
  have hft : ∀ t ∈ activeTripsOn db sh2, findTrip db.trips t.id = some t := by
    intro t ht
    exact findTrip_of_pairwise db.trips hnd t ((mem_filterP _ _ _).mp ht).1
  constructor
  · unfold handle_end_of_shift
    exact runShift_ledger db _ 0 db rfl rfl (fun r => rfl) hok
  · intro i t hi hf
    unfold handle_end_of_shift
    refine runShift_settles db failAt _ 0 db rfl rfl (fun r => rfl) hpw hft hok
      i t hi ?_
    rw [Nat.zero_add]
    exact hf

/-- Witness for C9: in `dbTwo` a store failure injected into the first
trip's settlement does not keep the second rider's trip from being settled
to AUTO_COMPLETED. -/
theorem C9_witness :
    findTrip (handle_end_of_shift dbTwo 5
        (fun i => if i = 0 then some 1 else none)).trips 2 =
      some ⟨2, 2, 5, 1, TripStatus.AUTO_COMPLETED⟩ := by
  have hact : activeTripsOn dbTwo 5 =
      [⟨1, 1, 5, 1, TripStatus.ACTIVE⟩, ⟨2, 2, 5, 1, TripStatus.ACTIVE⟩] := by
    simp [activeTripsOn, dbTwo, filterP]
  have hnd : dbTwo.trips.Pairwise (fun a b => a.id ≠ b.id) := by
    simp [dbTwo, List.pairwise_cons]
  have hok : ∀ t ∈ activeTripsOn dbTwo 5, CanSettle dbTwo t := by
    rw [hact]
    intro t ht
    rcases List.mem_cons.mp ht with rfl | ht2
    · exact ⟨by simp [findRider, findFirst, dbTwo], ⟨1, 10, 1, 0⟩, ⟨10, 1/2, 1/4⟩,
        ⟨2, 10, 2, 21/10⟩, by simp [findRouteStop, findFirst, dbTwo],
        by simp [findRoute, findFirst, dbTwo],
        by simp [lastStop, filterP, dbTwo, pickLater]⟩
    · rcases List.mem_singleton.mp ht2 with rfl
      exact ⟨by simp [findRider, findFirst, dbTwo], ⟨1, 10, 1, 0⟩, ⟨10, 1/2, 1/4⟩,
        ⟨2, 10, 2, 21/10⟩, by simp [findRouteStop, findFirst, dbTwo],
        by simp [findRoute, findFirst, dbTwo],
        by simp [lastStop, filterP, dbTwo, pickLater]⟩
  exact (C9_shift_visits_each_trip_once dbTwo 5
      (fun i => if i = 0 then some 1 else none) hnd hok).2 1
    ⟨2, 2, 5, 1, TripStatus.ACTIVE⟩ (by rw [hact]; rfl) (by simp)

/-- C1 (code evidence): in `dbMismatch` the forced settlement of the old
route-10 trip (maximum fare 1.02) drops the rider's balance to 0.98, below
route 20's base fare 2.00, so the fresh tap-on is rejected — and the source
then returns without committing, so the whole tap rolls back: the store is
returned unchanged, the old trip is still ACTIVE, no ledger entry was
appended and the balance still reads 2.00.  The claim says the forced
settlement's effects persist in exactly this situation. -/
theorem C1_forced_settlement_rolled_back :
    process_rider_tap dbMismatch 1 3 5 99 =
      (dbMismatch, TapResult.ForcedOffInsufficientFunds (51/50)) ∧
    findTrip (process_rider_tap dbMismatch 1 3 5 99).1.trips 1 =
      some ⟨1, 1, 5, 1, TripStatus.ACTIVE⟩ ∧
    (process_rider_tap dbMismatch 1 3 5 99).1.ledger = dbMismatch.ledger ∧
    findRider (process_rider_tap dbMismatch 1 3 5 99).1.users 1 = some ⟨1, 2⟩ := by
  have h := tap_forced_insufficient dbMismatch 1 3 5 99 ⟨1, 2⟩ ⟨3, 20, 1, 0⟩
    ⟨20, 2, 1/4⟩ ⟨1, 1, 5, 1, TripStatus.ACTIVE⟩ ⟨1, 10, 1, 0⟩ ⟨2, 10, 2, 21/10⟩
    ⟨10, 1/2, 1/4⟩
    (by simp [dbMismatch, findRider, findFirst])
    (by simp [dbMismatch, findRouteStop, findFirst])
    (by simp [dbMismatch, findRoute, findFirst])
    (by simp [dbMismatch, findActiveTrip, findFirst])
    (by simp [dbMismatch, findRouteStop, findFirst])
    (by decide) (by decide)
    (by simp [dbMismatch, lastStop, filterP, pickLater])
    (by simp [dbMismatch, findRoute, findFirst])
    (by norm_num [round2_val_max, abs_of_nonneg])
  refine ⟨?_, ?_, ?_, ?_⟩
  · rw [h]; norm_num [round2_val_max, abs_of_nonneg]
  · rw [h]; simp [dbMismatch, findTrip, findFirst]
  · rw [h]
  · rw [h]; simp [dbMismatch, findRider, findFirst]

/-- C2 (code evidence): settling the one active trip of `dbShift` with a
store failure injected after the balance update commits the debit alone:
the committed store has the rider debited to 8.98 with no RidePayment entry
and the trip still ACTIVE — a partial settlement made visible by the single
commit after the loop. -/
theorem C2_partial_settlement_committed :
    handle_end_of_shift dbShift 5 (fun i => if i = 0 then some 1 else none) =
      { dbShift with users := [⟨1, 449/50⟩] } ∧
    (handle_end_of_shift dbShift 5
      (fun i => if i = 0 then some 1 else none)).ledger = dbShift.ledger ∧
    findTrip (handle_end_of_shift dbShift 5
        (fun i => if i = 0 then some 1 else none)).trips 1 =
      some ⟨1, 1, 5, 1, TripStatus.ACTIVE⟩ := by
  have hplan := planSettle_eq dbShift ⟨1, 1, 5, 1, TripStatus.ACTIVE⟩ ⟨1, 10⟩
    ⟨1, 10, 1, 0⟩ ⟨10, 1/2, 1/4⟩ ⟨2, 10, 2, 21/10⟩
    (by simp [dbShift, findRider, findFirst])
    (by simp [dbShift, findRouteStop, findFirst])
    (by simp [dbShift, findRoute, findFirst])
    (by simp [dbShift, lastStop, filterP, pickLater])
  have hact : activeTripsOn dbShift 5 = [⟨1, 1, 5, 1, TripStatus.ACTIVE⟩] := by
    simp [activeTripsOn, dbShift, filterP]
  have hrun : handle_end_of_shift dbShift 5 (fun i => if i = 0 then some 1 else none) =
      settleTrip dbShift ⟨1, 1, 5, 1, TripStatus.ACTIVE⟩ (some 1) := by
    unfold handle_end_of_shift
    rw [hact]
    simp only [runShift]
    norm_num
  have hmain : handle_end_of_shift dbShift 5 (fun i => if i = 0 then some 1 else none) =
      { dbShift with users := [⟨1, 449/50⟩] } := by
    rw [hrun, settleTrip_shape _ _ _ _ hplan]
    norm_num [updateBalance, dbShift, round2_val_max, abs_of_nonneg, Option.getD]
  refine ⟨hmain, ?_, ?_⟩
  · rw [hmain]
  · rw [hmain]; simp [dbShift, findTrip, findFirst]

/-- C10: neither the tap-off nor the forced settlement checks funds, so a
committed settlement can leave a negative balance: the rider of `dbTapOff`
(0.30) taps off into a committed balance of minus 0.58, and the rider of
`dbPoor` (0.30) is force-settled at end of shift into minus 0.72. -/
theorem C10_negative_balance_after_settlement :
    ((process_rider_tap dbTapOff 1 2 5 99).2 = TapResult.TappedOff (22/25) ∧
      findRider (process_rider_tap dbTapOff 1 2 5 99).1.users 1 =
        some ⟨1, -(29/50)⟩ ∧
      (∀ t2 ∈ (process_rider_tap dbTapOff 1 2 5 99).1.trips,
        t2.id = 1 → t2.status = TripStatus.COMPLETED) ∧
      (-(29/50) : ℚ) < 0) ∧
    (findRider (handle_end_of_shift dbPoor 5 noFailure).users 1 =
        some ⟨1, -(18/25)⟩ ∧
      (-(18/25) : ℚ) < 0) := by
  constructor
  · have h := tap_off_eq dbTapOff 1 2 5 99 ⟨1, 3/10⟩ ⟨2, 10, 2, 3/2⟩
      ⟨10, 1/2, 1/4⟩ ⟨1, 1, 5, 1, TripStatus.ACTIVE⟩ ⟨1, 10, 1, 0⟩
      (by simp [dbTapOff, findRider, findFirst])
      (by simp [dbTapOff, findRouteStop, findFirst])
      (by simp [dbTapOff, findRoute, findFirst])
      (by simp [dbTapOff, findActiveTrip, findFirst])
      (by simp [dbTapOff, findRouteStop, findFirst])
      (by decide) rfl
    refine ⟨?_, ?_, ?_, by norm_num⟩
    · rw [h]; norm_num [round2_val_off, abs_of_nonneg]
    · rw [h]
      norm_num [chargeFare, updateBalance, dbTapOff, findRider, findFirst,
        round2_val_off, abs_of_nonneg]
    · rw [h]
      exact mem_setTripStatus_status dbTapOff.trips 1 TripStatus.COMPLETED
  · have hplan := planSettle_eq dbPoor ⟨1, 1, 5, 1, TripStatus.ACTIVE⟩ ⟨1, 3/10⟩
      ⟨1, 10, 1, 0⟩ ⟨10, 1/2, 1/4⟩ ⟨2, 10, 2, 21/10⟩
      (by simp [dbPoor, findRider, findFirst])
      (by simp [dbPoor, findRouteStop, findFirst])
      (by simp [dbPoor, findRoute, findFirst])
      (by simp [dbPoor, lastStop, filterP, pickLater])
    have hact : activeTripsOn dbPoor 5 = [⟨1, 1, 5, 1, TripStatus.ACTIVE⟩] := by
      simp [activeTripsOn, dbPoor, filterP]
    have hrun : handle_end_of_shift dbPoor 5 noFailure =
        settleTrip dbPoor ⟨1, 1, 5, 1, TripStatus.ACTIVE⟩ none := by
      unfold handle_end_of_shift
      rw [hact]
      simp only [runShift, noFailure]
    rw [hrun, settleTrip_none_eq _ _ _ hplan]
    refine ⟨?_, by norm_num⟩
    norm_num [chargeFare, updateBalance, dbPoor, findRider, findFirst,
      round2_val_max, abs_of_nonneg]

end ShuttleSystem
